import Mathlib

/-!
Formal model of the yabridge wire serialization layer
(src/common/serialization.h).

The repository serializes all bridge messages with a vendored binary
serialization library.  That library is third-party code excluded from the
repository sources, so its primitives (fixed-width integer encoding,
length-prefixed bounded containers, tagged-union discriminants, optional
values) are modelled here from the encoding rules stated in the
specification; every message-level serializer below is translated directly
from serialization.h.
-/

namespace Yabridge

/-- A byte of the wire stream, modelled as a natural number below 256. -/
abbrev Byte := Nat

/-! ### Byte-stream primitives -/

/-- Little-endian fixed-width encoding of an unsigned machine word into
exactly n bytes.  Modelled from the spec: integers declared at 2, 4 or 8
bytes are encoded at exactly that width. -/
def wordToBytes : Nat → Nat → List Byte
  | 0, _ => []
  | n + 1, v => v % 256 :: wordToBytes n (v / 256)

/-- Read an n-byte little-endian unsigned word from the front of a stream. -/
def rWord : Nat → List Byte → Option (Nat × List Byte)
  | 0, bs => some (0, bs)
  | _ + 1, [] => none
  | n + 1, b :: bs => (rWord n bs).map fun p => (b % 256 + 256 * p.1, p.2)

/-- Two's-complement fixed-width encoding of a signed integer into n bytes. -/
def wInt (n : Nat) (v : Int) : List Byte :=
  wordToBytes n (v % ((2 : Int) ^ (8 * n))).toNat

/-- Read an n-byte little-endian two's-complement signed integer. -/
def rInt (n : Nat) (bs : List Byte) : Option (Int × List Byte) :=
  (rWord n bs).map fun p =>
    (if p.1 < 2 ^ (8 * n - 1) then (p.1 : Int) else (p.1 : Int) - 2 ^ (8 * n), p.2)

/-- Length prefix of a variable-size container.  Modelled from the spec:
variable-length containers are length-prefixed; the prefix is a 4-byte
unsigned count. -/
def wSize (v : Nat) : List Byte := wordToBytes 4 v

/-- Read a container length prefix and enforce its declared maximum.
Modelled from the spec: decoding a length that exceeds the maximum is a
hard decoding failure. -/
def rSize (cap : Nat) (bs : List Byte) : Option (Nat × List Byte) :=
  (rWord 4 bs).bind fun p => if p.1 ≤ cap then some p else none

/-- Read exactly n raw bytes from the front of a stream. -/
def readN : Nat → List Byte → Option (List Byte × List Byte)
  | 0, bs => some ([], bs)
  | _ + 1, [] => none
  | n + 1, b :: bs => (readN n bs).map fun p => (b :: p.1, p.2)

/-- Write a bounded variable-length byte container (strings and byte blobs):
length prefix followed by the raw bytes; encoding an over-long container is
an explicit failure. -/
def wBytesVar (cap : Nat) (xs : List Byte) : Option (List Byte) :=
  if xs.length ≤ cap then some (wSize xs.length ++ xs.map (· % 256)) else none

/-- Read a bounded variable-length byte container. -/
def rBytesVar (cap : Nat) (bs : List Byte) : Option (List Byte × List Byte) :=
  (rSize cap bs).bind fun p => readN p.1 p.2

/-- Write a fixed-size byte container (embedded fixed-size text and data
fields): raw bytes, no length prefix. -/
def wBytesFixed (xs : List Byte) : List Byte := xs.map (· % 256)

/-- Read a fixed-size byte container of n bytes. -/
def rBytesFixed (n : Nat) (bs : List Byte) : Option (List Byte × List Byte) :=
  readN n bs

/-- Concatenate the encodings of a list of elements, failing if any element
fails to encode. -/
def wList {α : Type} (wElem : α → Option (List Byte)) : List α → Option (List Byte)
  | [] => some []
  | x :: xs => (wElem x).bind fun b => (wList wElem xs).map fun bs => b ++ bs

/-- Read n consecutive elements with the given element reader. -/
def readList {α : Type} (rElem : List Byte → Option (α × List Byte)) :
    Nat → List Byte → Option (List α × List Byte)
  | 0, bs => some ([], bs)
  | n + 1, bs => (rElem bs).bind fun p => (readList rElem n p.2).map fun q => (p.1 :: q.1, q.2)

/-- Write a bounded variable-length container of serializable elements:
length prefix followed by the element encodings. -/
def wContainer {α : Type} (cap : Nat) (wElem : α → Option (List Byte)) (xs : List α) :
    Option (List Byte) :=
  if xs.length ≤ cap then (wList wElem xs).map fun bs => wSize xs.length ++ bs else none

/-- Read a bounded variable-length container of serializable elements. -/
def rContainer {α : Type} (cap : Nat) (rElem : List Byte → Option (α × List Byte))
    (bs : List Byte) : Option (List α × List Byte) :=
  (rSize cap bs).bind fun p => readList rElem p.1 p.2

/-! ### Well-formedness of field values (the ranges the C++ types enforce) -/

/-- Every entry of the list is a byte value. -/
def bytesOk (xs : List Byte) : Prop := ∀ b ∈ xs, b < 256

instance : DecidablePred bytesOk := fun xs => List.decidableBAll _ xs

/-- Range of a 16-bit signed integer field. -/
@[reducible] def int16Ok (v : Int) : Prop := -(2 ^ 15) ≤ v ∧ v < 2 ^ 15

/-- Range of a 32-bit signed integer field. -/
@[reducible] def int32Ok (v : Int) : Prop := -(2 ^ 31) ≤ v ∧ v < 2 ^ 31

/-- Range of a 64-bit signed integer field. -/
@[reducible] def int64Ok (v : Int) : Prop := -(2 ^ 63) ≤ v ∧ v < 2 ^ 63

/-- Range of a 32-bit unsigned word, also used for the bit pattern of a
4-byte float field (serialization copies the bits and never interprets
them). -/
@[reducible] def word32Ok (v : Nat) : Prop := v < 2 ^ 32

/-- Range of a 64-bit unsigned word, also used for the bit pattern of an
8-byte double field. -/
@[reducible] def word64Ok (v : Nat) : Prop := v < 2 ^ 64

/-! ### Round-trip lemmas for the primitives -/

theorem length_wordToBytes (n v : Nat) : (wordToBytes n v).length = n := by
  induction n generalizing v with
  | zero => rfl
  | succ k ih => simp [wordToBytes, ih]

theorem rWord_wordToBytes (n v : Nat) (rest : List Byte) :
    rWord n (wordToBytes n v ++ rest) = some (v % 2 ^ (8 * n), rest) := by
  induction n generalizing v with
  | zero => simp [rWord, wordToBytes, Nat.mod_one]
  | succ k ih =>
      have h2 : 2 ^ (8 * (k + 1)) = 256 * 2 ^ (8 * k) := by
        rw [Nat.mul_succ, pow_add]; ring
      have e1 : v % (256 * 2 ^ (8 * k)) % 256 = v % 256 :=
        Nat.mod_mod_of_dvd v (dvd_mul_right 256 _)
      have e2 : v % (256 * 2 ^ (8 * k)) / 256 = v / 256 % 2 ^ (8 * k) :=
        Nat.mod_mul_right_div_self v 256 _
      have e3 : 256 * (v % (256 * 2 ^ (8 * k)) / 256) + v % (256 * 2 ^ (8 * k)) % 256
          = v % (256 * 2 ^ (8 * k)) := Nat.div_add_mod _ 256
      rw [e2, e1] at e3
      have key : v % 2 ^ (8 * (k + 1)) = v % 256 + 256 * (v / 256 % 2 ^ (8 * k)) := by
        rw [h2, ← e3]; ring
      simp only [wordToBytes, List.cons_append, rWord, List.append_eq]
      rw [ih (v / 256), Option.map_some', Nat.mod_mod_of_dvd v (dvd_refl 256), key]

theorem rWord_cons (n v : Nat) (rest : List Byte) (h : v < 2 ^ (8 * n)) :
    rWord n (wordToBytes n v ++ rest) = some (v, rest) := by
  rw [rWord_wordToBytes, Nat.mod_eq_of_lt h]

theorem rWord1_cons (v : Nat) (rest : List Byte) (h : v < 256) :
    rWord 1 (wordToBytes 1 v ++ rest) = some (v, rest) :=
  rWord_cons 1 v rest (by norm_num; omega)

theorem rWord2_cons (v : Nat) (rest : List Byte) (h : v < 2 ^ 16) :
    rWord 2 (wordToBytes 2 v ++ rest) = some (v, rest) :=
  rWord_cons 2 v rest (by norm_num at h ⊢; omega)

theorem rWord4_cons (v : Nat) (rest : List Byte) (h : v < 2 ^ 32) :
    rWord 4 (wordToBytes 4 v ++ rest) = some (v, rest) :=
  rWord_cons 4 v rest (by norm_num at h ⊢; omega)

theorem rWord8_cons (v : Nat) (rest : List Byte) (h : v < 2 ^ 64) :
    rWord 8 (wordToBytes 8 v ++ rest) = some (v, rest) :=
  rWord_cons 8 v rest (by norm_num at h ⊢; omega)

theorem rInt_wInt (n : Nat) (hn : 0 < n) (v : Int) (rest : List Byte)
    (h1 : -(2 ^ (8 * n - 1)) ≤ v) (h2 : v < 2 ^ (8 * n - 1)) :
    rInt n (wInt n v ++ rest) = some (v, rest) := by
  have hsucc : 8 * n - 1 + 1 = 8 * n := by omega
  have hhalf : ((2 : Int) ^ (8 * n - 1)) * 2 = 2 ^ (8 * n) := by
    rw [← pow_succ, hsucc]
  have hpos : (0 : Int) < 2 ^ (8 * n) := by positivity
  have hnn : 0 ≤ v % 2 ^ (8 * n) := Int.emod_nonneg v (ne_of_gt hpos)
  have hlt : v % 2 ^ (8 * n) < 2 ^ (8 * n) := Int.emod_lt_of_pos v hpos
  have hcast : (((2 : Nat) ^ (8 * n) : Nat) : Int) = (2 : Int) ^ (8 * n) := by push_cast; ring
  have hcast2 : (((2 : Nat) ^ (8 * n - 1) : Nat) : Int) = (2 : Int) ^ (8 * n - 1) := by
    push_cast; ring
  set w : Nat := (v % 2 ^ (8 * n)).toNat with hw
  have hwi : (w : Int) = v % 2 ^ (8 * n) := Int.toNat_of_nonneg hnn
  have hwlt : w < 2 ^ (8 * n) := by
    have : (w : Int) < ((2 ^ (8 * n) : Nat) : Int) := by rw [hcast, hwi]; exact hlt
    exact_mod_cast this
  have hp : (0 : Int) < 2 ^ (8 * n - 1) := by positivity
  have hmono : (2 : Int) ^ (8 * n - 1) ≤ 2 ^ (8 * n) := by
    rw [← hhalf]; linarith
  rw [wInt, ← hw, rInt, rWord_cons n w rest hwlt, Option.map_some']
  show some (if w < 2 ^ (8 * n - 1) then ((w : Int)) else (w : Int) - 2 ^ (8 * n), rest)
    = some (v, rest)
  by_cases hv : 0 ≤ v
  · have hvm : v % 2 ^ (8 * n) = v := by
      apply Int.emod_eq_of_lt hv
      exact lt_of_lt_of_le h2 hmono
    have hwv : (w : Int) = v := by rw [hwi, hvm]
    have hwsmall : w < 2 ^ (8 * n - 1) := by
      have : (w : Int) < ((2 ^ (8 * n - 1) : Nat) : Int) := by rw [hcast2, hwv]; exact h2
      exact_mod_cast this
    rw [if_pos hwsmall, hwv]
  · push_neg at hv
    have hvm : v % 2 ^ (8 * n) = v + 2 ^ (8 * n) := by
      have e1 : (v + 2 ^ (8 * n) * 1) % 2 ^ (8 * n) = v % 2 ^ (8 * n) :=
        Int.add_mul_emod_self_left v (2 ^ (8 * n)) 1
      have e2 : (v + 2 ^ (8 * n)) % 2 ^ (8 * n) = v + 2 ^ (8 * n) := by
        apply Int.emod_eq_of_lt
        · linarith
        · linarith
      rw [← e2]
      rw [mul_one] at e1
      rw [e1]
    have hwv : (w : Int) = v + 2 ^ (8 * n) := by rw [hwi, hvm]
    have hwbig : ¬ w < 2 ^ (8 * n - 1) := by
      intro hcon
      have : (w : Int) < ((2 ^ (8 * n - 1) : Nat) : Int) := by exact_mod_cast hcon
      rw [hcast2, hwv] at this
      linarith
    rw [if_neg hwbig, hwv]
    have hsub : v + (2 : Int) ^ (8 * n) - 2 ^ (8 * n) = v := by ring
    rw [hsub]

theorem rInt2_cons (v : Int) (rest : List Byte) (h : int16Ok v) :
    rInt 2 (wInt 2 v ++ rest) = some (v, rest) := by
  have := rInt_wInt 2 (by norm_num) v rest
  norm_num at this
  exact this h.1 h.2

theorem rInt4_cons (v : Int) (rest : List Byte) (h : int32Ok v) :
    rInt 4 (wInt 4 v ++ rest) = some (v, rest) := by
  have := rInt_wInt 4 (by norm_num) v rest
  norm_num at this
  exact this h.1 h.2

theorem rInt8_cons (v : Int) (rest : List Byte) (h : int64Ok v) :
    rInt 8 (wInt 8 v ++ rest) = some (v, rest) := by
  have := rInt_wInt 8 (by norm_num) v rest
  norm_num at this
  exact this h.1 h.2

theorem rSize_cons (cap n : Nat) (rest : List Byte) (h1 : n ≤ cap) (h2 : n < 2 ^ 32) :
    rSize cap (wSize n ++ rest) = some (n, rest) := by
  rw [rSize, wSize, rWord4_cons n rest h2]
  simp [h1]

theorem rSize_over (cap n : Nat) (rest : List Byte) (h1 : cap < n) (h2 : n < 2 ^ 32) :
    rSize cap (wSize n ++ rest) = none := by
  rw [rSize, wSize, rWord4_cons n rest h2]
  simp; omega

theorem readN_append (xs rest : List Byte) : readN xs.length (xs ++ rest) = some (xs, rest) := by
  induction xs with
  | nil => rfl
  | cons b bs ih => simp [readN, ih]

theorem map_mod_of_bytesOk (xs : List Byte) (h : bytesOk xs) : xs.map (· % 256) = xs := by
  induction xs with
  | nil => rfl
  | cons b bs ih =>
      have hb : b < 256 := h b (List.mem_cons_self b bs)
      have hrest : bytesOk bs := fun x hx => h x (List.mem_cons_of_mem b hx)
      simp [Nat.mod_eq_of_lt hb, ih hrest]

theorem rBytesFixed_cons (n : Nat) (xs rest : List Byte) (h1 : xs.length = n)
    (h2 : bytesOk xs) : rBytesFixed n (wBytesFixed xs ++ rest) = some (xs, rest) := by
  rw [rBytesFixed, wBytesFixed, map_mod_of_bytesOk xs h2, ← h1, readN_append]

theorem wBytesVar_eq (cap : Nat) (xs : List Byte) (h1 : xs.length ≤ cap) (h2 : bytesOk xs) :
    wBytesVar cap xs = some (wSize xs.length ++ xs) := by
  rw [wBytesVar, if_pos h1, map_mod_of_bytesOk xs h2]

theorem rBytesVar_cons (cap : Nat) (xs rest : List Byte) (hcap : cap < 2 ^ 32)
    (h1 : xs.length ≤ cap) (h2 : bytesOk xs) :
    rBytesVar cap (wSize xs.length ++ xs ++ rest) = some (xs, rest) := by
  rw [rBytesVar, List.append_assoc, rSize_cons cap xs.length _ h1 (by omega)]
  simpa using readN_append xs rest

theorem rBytesVar_over (cap n : Nat) (rest : List Byte) (h1 : cap < n) (h2 : n < 2 ^ 32) :
    rBytesVar cap (wSize n ++ rest) = none := by
  rw [rBytesVar, rSize_over cap n rest h1 h2]
  rfl

theorem readList_wList {α : Type} (wElem : α → Option (List Byte))
    (rElem : List Byte → Option (α × List Byte)) (xs : List α)
    (h : ∀ x ∈ xs, ∃ b, wElem x = some b ∧ ∀ r, rElem (b ++ r) = some (x, r)) :
    ∃ bs, wList wElem xs = some bs ∧
      ∀ rest, readList rElem xs.length (bs ++ rest) = some (xs, rest) := by
  induction xs with
  | nil => exact ⟨[], rfl, fun rest => rfl⟩
  | cons x xs ih =>
      obtain ⟨b, hwb, hrb⟩ := h x (List.mem_cons_self x xs)
      obtain ⟨bs, hwbs, hrbs⟩ := ih fun y hy => h y (List.mem_cons_of_mem x hy)
      refine ⟨b ++ bs, ?_, ?_⟩
      · rw [wList, hwb, Option.some_bind, hwbs, Option.map_some']
      · intro rest
        rw [List.length_cons, readList, List.append_assoc, hrb (bs ++ rest),
          Option.some_bind, hrbs rest, Option.map_some']

theorem rContainer_wContainer {α : Type} (cap : Nat) (hcap : cap < 2 ^ 32)
    (wElem : α → Option (List Byte)) (rElem : List Byte → Option (α × List Byte))
    (xs : List α) (hlen : xs.length ≤ cap)
    (h : ∀ x ∈ xs, ∃ b, wElem x = some b ∧ ∀ r, rElem (b ++ r) = some (x, r)) :
    ∃ bs, wContainer cap wElem xs = some bs ∧
      ∀ rest, rContainer cap rElem (bs ++ rest) = some (xs, rest) := by
  obtain ⟨body, hwb, hrb⟩ := readList_wList wElem rElem xs h
  refine ⟨wSize xs.length ++ body, ?_, ?_⟩
  · rw [wContainer, if_pos hlen, hwb, Option.map_some']
  · intro rest
    rw [rContainer, List.append_assoc, rSize_cons cap xs.length _ hlen (by omega),
      Option.some_bind, hrb rest]

theorem rContainer_over {α : Type} (cap : Nat) (rElem : List Byte → Option (α × List Byte))
    (n : Nat) (rest : List Byte) (h1 : cap < n) (h2 : n < 2 ^ 32) :
    rContainer cap rElem (wSize n ++ rest) = none := by
  rw [rContainer, rSize_over cap n rest h1 h2]
  rfl

/-! ### Limits declared in serialization.h -/

/-- The maximum number of audio channels supported. -/
def max_audio_channels : Nat := 32

/-- The maximum number of samples in a buffer. -/
def max_buffer_size : Nat := 16384

/-- The maximum number of MIDI events in a single VstEvents struct.  The
source computes this as max_buffer_size divided by the byte width of the
native size type of the build, which is 8 on the 64-bit builds and 4 on the
optional 32-bit companion build. -/
def max_midi_events (sizeof_size_t : Nat) : Nat := max_buffer_size / sizeof_size_t

/-- The maximum size in bytes of a string or buffer passed through a void
pointer in one of the dispatch functions. -/
def max_string_length : Nat := 64

/-- The size cap for a buffer in which chunks are received, 50 MB. -/
def binary_buffer_size : Nat := 50 <<< 20

/-! ### Fixed byte sizes of the vendored interface-definition structs.
Modelled from the spec: the interface-definition header is vendored
third-party code outside the repository sources; only its fixed byte sizes
enter the wire format, as raw byte containers. -/

/-- Byte size of the data block of the I/O-properties record. -/
def vstIOPropertiesDataSize : Nat := 128

/-- Byte size of the data block of the MIDI-key-name record. -/
def vstMidiKeyNameDataSize : Nat := 80

/-- Byte size of the raw byte dump of one MIDI event. -/
def vstEventDumpSize : Nat := 32

/-- Byte size of the reserved block of the transport/time-position record. -/
def vstTimeInfoEmpty3Size : Nat := 12

/-- Byte sizes of the embedded text fields of the parameter-properties
record. -/
def vstLabelLen : Nat := 64

/-- Byte size of the short label field of the parameter-properties record. -/
def vstShortLabelLen : Nat := 8

/-- Byte size of the category label field of the parameter-properties
record. -/
def vstCategoryLabelLen : Nat := 24

/-- Byte size of the future block of the parameter-properties record. -/
def vstFutureLen : Nat := 16

/-- Byte size of the future block at the end of the plugin descriptor. -/
def aeffectFutureSize : Nat := 60

/-! ### The plugin descriptor -/

/-- The plugin descriptor struct.  The twelve numeric fields are the ones
serialization.h transmits; the remaining fields (function pointers, object
pointers and the trailing future block, modelled here as abstract machine
words) are never touched by the serialization code.  Field layout modelled
from the spec, since the interface-definition header is vendored. -/
structure AEffect where
  magic : Int
  dispatcher : Nat
  process : Nat
  setParameter : Nat
  getParameter : Nat
  numPrograms : Int
  numParams : Int
  numInputs : Int
  numOutputs : Int
  flags : Int
  ptr1 : Nat
  ptr2 : Nat
  initialDelay : Int
  empty3a : Int
  empty3b : Int
  unkown_float : Nat
  ptr3 : Nat
  user : Nat
  uniqueID : Int
  version : Int
  processReplacing : Nat
  future : List Byte
  deriving DecidableEq

/-- Ranges of the twelve transmitted fields of a plugin descriptor. -/
def AEffect.WF (e : AEffect) : Prop :=
  int32Ok e.magic ∧ int32Ok e.numPrograms ∧ int32Ok e.numParams ∧ int32Ok e.numInputs ∧
  int32Ok e.numOutputs ∧ int32Ok e.flags ∧ int32Ok e.initialDelay ∧ int32Ok e.empty3a ∧
  int32Ok e.empty3b ∧ word32Ok e.unkown_float ∧ int32Ok e.uniqueID ∧ int32Ok e.version

instance (e : AEffect) : Decidable e.WF := by unfold AEffect.WF int32Ok word32Ok; infer_instance

/-- The value a fresh AEffect instance holds before anything is merged into
it, as produced when a decoder materializes a descriptor it has no existing
instance for: every field is value-initialized to zero. -/
def AEffect.valueInit : AEffect :=
  ⟨0, 0, 0, 0, 0, 0, 0, 0, 0, 0, 0, 0, 0, 0, 0, 0, 0, 0, 0, 0, 0,
    List.replicate aeffectFutureSize 0⟩

/-- The untransmitted fields of the descriptor hold the value-initialized
defaults. -/
def AEffect.untransmittedDefault (e : AEffect) : Prop :=
  e.dispatcher = 0 ∧ e.process = 0 ∧ e.setParameter = 0 ∧ e.getParameter = 0 ∧
  e.ptr1 = 0 ∧ e.ptr2 = 0 ∧ e.ptr3 = 0 ∧ e.user = 0 ∧ e.processReplacing = 0 ∧
  e.future = List.replicate aeffectFutureSize 0

instance (e : AEffect) : Decidable e.untransmittedDefault := by
  unfold AEffect.untransmittedDefault; infer_instance

/-- Serialization of the plugin descriptor: exactly the twelve numeric
fields, in declaration order, each at 4 bytes (serialize(S, AEffect)). -/
def wAEffect (e : AEffect) : List Byte :=
  wInt 4 e.magic ++ (wInt 4 e.numPrograms ++ (wInt 4 e.numParams ++ (wInt 4 e.numInputs ++
    (wInt 4 e.numOutputs ++ (wInt 4 e.flags ++ (wInt 4 e.initialDelay ++ (wInt 4 e.empty3a ++
      (wInt 4 e.empty3b ++ (wordToBytes 4 e.unkown_float ++ (wInt 4 e.uniqueID ++
        wInt 4 e.version))))))))))

/-- Deserialization of the plugin descriptor into an already-allocated
instance prev: the twelve numeric fields are assigned from the stream and
every other field keeps the value it has in prev. -/
def rAEffect (prev : AEffect) (bs : List Byte) : Option (AEffect × List Byte) :=
  match rInt 4 bs with
  | none => none
  | some (magic, bs) =>
  match rInt 4 bs with
  | none => none
  | some (numPrograms, bs) =>
  match rInt 4 bs with
  | none => none
  | some (numParams, bs) =>
  match rInt 4 bs with
  | none => none
  | some (numInputs, bs) =>
  match rInt 4 bs with
  | none => none
  | some (numOutputs, bs) =>
  match rInt 4 bs with
  | none => none
  | some (flags, bs) =>
  match rInt 4 bs with
  | none => none
  | some (initialDelay, bs) =>
  match rInt 4 bs with
  | none => none
  | some (empty3a, bs) =>
  match rInt 4 bs with
  | none => none
  | some (empty3b, bs) =>
  match rWord 4 bs with
  | none => none
  | some (unkown_float, bs) =>
  match rInt 4 bs with
  | none => none
  | some (uniqueID, bs) =>
  match rInt 4 bs with
  | none => none
  | some (version, bs) =>
  some ({ prev with
            magic := magic, numPrograms := numPrograms, numParams := numParams,
            numInputs := numInputs, numOutputs := numOutputs, flags := flags,
            initialDelay := initialDelay, empty3a := empty3a, empty3b := empty3b,
            unkown_float := unkown_float, uniqueID := uniqueID, version := version },
        bs)

/-! ### Fixed-layout records -/

/-- The I/O-properties record: one raw fixed-size byte container
(serialize(S, VstIOProperties)). -/
structure VstIOProperties where
  data : List Byte
  deriving DecidableEq

def VstIOProperties.WF (p : VstIOProperties) : Prop :=
  p.data.length = vstIOPropertiesDataSize ∧ bytesOk p.data

instance (p : VstIOProperties) : Decidable p.WF := by
  unfold VstIOProperties.WF; infer_instance

def wVstIOProperties (p : VstIOProperties) : List Byte := wBytesFixed p.data

def rVstIOProperties (bs : List Byte) : Option (VstIOProperties × List Byte) :=
  (rBytesFixed vstIOPropertiesDataSize bs).map fun p => (⟨p.1⟩, p.2)

/-- The MIDI-key-name record: one raw fixed-size byte container
(serialize(S, VstMidiKeyName)). -/
structure VstMidiKeyName where
  data : List Byte
  deriving DecidableEq

def VstMidiKeyName.WF (p : VstMidiKeyName) : Prop :=
  p.data.length = vstMidiKeyNameDataSize ∧ bytesOk p.data

instance (p : VstMidiKeyName) : Decidable p.WF := by
  unfold VstMidiKeyName.WF; infer_instance

def wVstMidiKeyName (p : VstMidiKeyName) : List Byte := wBytesFixed p.data

def rVstMidiKeyName (bs : List Byte) : Option (VstMidiKeyName × List Byte) :=
  (rBytesFixed vstMidiKeyNameDataSize bs).map fun p => (⟨p.1⟩, p.2)

/-- The parameter-properties record (serialize(S, VstParameterProperties)).
Float fields carry their 4-byte bit pattern. -/
structure VstParameterProperties where
  stepFloat : Nat
  smallStepFloat : Nat
  largeStepFloat : Nat
  label : List Byte
  flags : Int
  minInteger : Int
  maxInteger : Int
  stepInteger : Int
  largeStepInteger : Int
  shortLabel : List Byte
  displayIndex : Int
  category : Int
  numParametersInCategory : Int
  reserved : Int
  categoryLabel : List Byte
  future : List Byte
  deriving DecidableEq

def VstParameterProperties.WF (p : VstParameterProperties) : Prop :=
  word32Ok p.stepFloat ∧ word32Ok p.smallStepFloat ∧ word32Ok p.largeStepFloat ∧
  p.label.length = vstLabelLen ∧ bytesOk p.label ∧
  int32Ok p.flags ∧ int32Ok p.minInteger ∧ int32Ok p.maxInteger ∧ int32Ok p.stepInteger ∧
  int32Ok p.largeStepInteger ∧
  p.shortLabel.length = vstShortLabelLen ∧ bytesOk p.shortLabel ∧
  int16Ok p.displayIndex ∧ int16Ok p.category ∧ int16Ok p.numParametersInCategory ∧
  int16Ok p.reserved ∧
  p.categoryLabel.length = vstCategoryLabelLen ∧ bytesOk p.categoryLabel ∧
  p.future.length = vstFutureLen ∧ bytesOk p.future

instance (p : VstParameterProperties) : Decidable p.WF := by
  unfold VstParameterProperties.WF int32Ok int16Ok word32Ok; infer_instance

def wVstParameterProperties (p : VstParameterProperties) : List Byte :=
  wordToBytes 4 p.stepFloat ++ (wordToBytes 4 p.smallStepFloat ++
    (wordToBytes 4 p.largeStepFloat ++ (wBytesFixed p.label ++ (wInt 4 p.flags ++
      (wInt 4 p.minInteger ++ (wInt 4 p.maxInteger ++ (wInt 4 p.stepInteger ++
        (wInt 4 p.largeStepInteger ++ (wBytesFixed p.shortLabel ++ (wInt 2 p.displayIndex ++
          (wInt 2 p.category ++ (wInt 2 p.numParametersInCategory ++ (wInt 2 p.reserved ++
            (wBytesFixed p.categoryLabel ++ wBytesFixed p.future))))))))))))))

def rVstParameterProperties (bs : List Byte) : Option (VstParameterProperties × List Byte) :=
  match rWord 4 bs with
  | none => none
  | some (stepFloat, bs) =>
  match rWord 4 bs with
  | none => none
  | some (smallStepFloat, bs) =>
  match rWord 4 bs with
  | none => none
  | some (largeStepFloat, bs) =>
  match rBytesFixed vstLabelLen bs with
  | none => none
  | some (label, bs) =>
  match rInt 4 bs with
  | none => none
  | some (flags, bs) =>
  match rInt 4 bs with
  | none => none
  | some (minInteger, bs) =>
  match rInt 4 bs with
  | none => none
  | some (maxInteger, bs) =>
  match rInt 4 bs with
  | none => none
  | some (stepInteger, bs) =>
  match rInt 4 bs with
  | none => none
  | some (largeStepInteger, bs) =>
  match rBytesFixed vstShortLabelLen bs with
  | none => none
  | some (shortLabel, bs) =>
  match rInt 2 bs with
  | none => none
  | some (displayIndex, bs) =>
  match rInt 2 bs with
  | none => none
  | some (category, bs) =>
  match rInt 2 bs with
  | none => none
  | some (numParametersInCategory, bs) =>
  match rInt 2 bs with
  | none => none
  | some (reserved, bs) =>
  match rBytesFixed vstCategoryLabelLen bs with
  | none => none
  | some (categoryLabel, bs) =>
  match rBytesFixed vstFutureLen bs with
  | none => none
  | some (future, bs) =>
  some (⟨stepFloat, smallStepFloat, largeStepFloat, label, flags, minInteger, maxInteger,
          stepInteger, largeStepInteger, shortLabel, displayIndex, category,
          numParametersInCategory, reserved, categoryLabel, future⟩, bs)

/-- The editor rectangle: four 2-byte signed fields (serialize(S, VstRect)). -/
structure VstRect where
  top : Int
  left : Int
  right : Int
  bottom : Int
  deriving DecidableEq

def VstRect.WF (r : VstRect) : Prop :=
  int16Ok r.top ∧ int16Ok r.left ∧ int16Ok r.right ∧ int16Ok r.bottom

instance (r : VstRect) : Decidable r.WF := by unfold VstRect.WF int16Ok; infer_instance

def wVstRect (r : VstRect) : List Byte :=
  wInt 2 r.top ++ (wInt 2 r.left ++ (wInt 2 r.right ++ wInt 2 r.bottom))

def rVstRect (bs : List Byte) : Option (VstRect × List Byte) :=
  match rInt 2 bs with
  | none => none
  | some (top, bs) =>
  match rInt 2 bs with
  | none => none
  | some (left, bs) =>
  match rInt 2 bs with
  | none => none
  | some (right, bs) =>
  match rInt 2 bs with
  | none => none
  | some (bottom, bs) =>
  some (⟨top, left, right, bottom⟩, bs)

/-- The transport/time-position record (serialize(S, VstTimeInfo)).  The
8-byte double fields carry their bit patterns. -/
structure VstTimeInfo where
  samplePos : Nat
  sampleRate : Nat
  nanoSeconds : Nat
  ppqPos : Nat
  tempo : Nat
  barStartPos : Nat
  cycleStartPos : Nat
  cycleEndPos : Nat
  timeSigNumerator : Int
  timeSigDenominator : Int
  empty3 : List Byte
  flags : Int
  deriving DecidableEq

def VstTimeInfo.WF (t : VstTimeInfo) : Prop :=
  word64Ok t.samplePos ∧ word64Ok t.sampleRate ∧ word64Ok t.nanoSeconds ∧ word64Ok t.ppqPos ∧
  word64Ok t.tempo ∧ word64Ok t.barStartPos ∧ word64Ok t.cycleStartPos ∧
  word64Ok t.cycleEndPos ∧ int32Ok t.timeSigNumerator ∧ int32Ok t.timeSigDenominator ∧
  t.empty3.length = vstTimeInfoEmpty3Size ∧ bytesOk t.empty3 ∧ int32Ok t.flags

instance (t : VstTimeInfo) : Decidable t.WF := by
  unfold VstTimeInfo.WF int32Ok word64Ok; infer_instance

def wVstTimeInfo (t : VstTimeInfo) : List Byte :=
  wordToBytes 8 t.samplePos ++ (wordToBytes 8 t.sampleRate ++ (wordToBytes 8 t.nanoSeconds ++
    (wordToBytes 8 t.ppqPos ++ (wordToBytes 8 t.tempo ++ (wordToBytes 8 t.barStartPos ++
      (wordToBytes 8 t.cycleStartPos ++ (wordToBytes 8 t.cycleEndPos ++
        (wInt 4 t.timeSigNumerator ++ (wInt 4 t.timeSigDenominator ++
          (wBytesFixed t.empty3 ++ wInt 4 t.flags))))))))))

def rVstTimeInfo (bs : List Byte) : Option (VstTimeInfo × List Byte) :=
  match rWord 8 bs with
  | none => none
  | some (samplePos, bs) =>
  match rWord 8 bs with
  | none => none
  | some (sampleRate, bs) =>
  match rWord 8 bs with
  | none => none
  | some (nanoSeconds, bs) =>
  match rWord 8 bs with
  | none => none
  | some (ppqPos, bs) =>
  match rWord 8 bs with
  | none => none
  | some (tempo, bs) =>
  match rWord 8 bs with
  | none => none
  | some (barStartPos, bs) =>
  match rWord 8 bs with
  | none => none
  | some (cycleStartPos, bs) =>
  match rWord 8 bs with
  | none => none
  | some (cycleEndPos, bs) =>
  match rInt 4 bs with
  | none => none
  | some (timeSigNumerator, bs) =>
  match rInt 4 bs with
  | none => none
  | some (timeSigDenominator, bs) =>
  match rBytesFixed vstTimeInfoEmpty3Size bs with
  | none => none
  | some (empty3, bs) =>
  match rInt 4 bs with
  | none => none
  | some (flags, bs) =>
  some (⟨samplePos, sampleRate, nanoSeconds, ppqPos, tempo, barStartPos, cycleStartPos,
          cycleEndPos, timeSigNumerator, timeSigDenominator, empty3, flags⟩, bs)

/-! ### MIDI event batches -/

/-- One MIDI event, stored as its raw byte dump. -/
structure VstEvent where
  dump : List Byte
  deriving DecidableEq

def VstEvent.WF (e : VstEvent) : Prop :=
  e.dump.length = vstEventDumpSize ∧ bytesOk e.dump

instance (e : VstEvent) : Decidable e.WF := by unfold VstEvent.WF; infer_instance

def wVstEvent (e : VstEvent) : List Byte := wBytesFixed e.dump

def rVstEvent (bs : List Byte) : Option (VstEvent × List Byte) :=
  (rBytesFixed vstEventDumpSize bs).map fun p => (⟨p.1⟩, p.2)

/-- A batch of MIDI events, held in an owned vector (DynamicVstEvents). -/
structure DynamicVstEvents where
  events : List VstEvent
  deriving DecidableEq

def DynamicVstEvents.WF (ev : DynamicVstEvents) : Prop :=
  ev.events.length ≤ max_midi_events 8 ∧ ∀ e ∈ ev.events, e.WF

instance (ev : DynamicVstEvents) : Decidable ev.WF := by
  unfold DynamicVstEvents.WF; infer_instance

/-- Serialization of a MIDI event batch: a bounded container of raw event
dumps, with the 64-bit build event cap. -/
def wDynamicVstEvents (ev : DynamicVstEvents) : Option (List Byte) :=
  wContainer (max_midi_events 8) (fun e => some (wVstEvent e)) ev.events

def rDynamicVstEvents (bs : List Byte) : Option (DynamicVstEvents × List Byte) :=
  (rContainer (max_midi_events 8) rVstEvent bs).map fun p => (⟨p.1⟩, p.2)

/-! ### The call-event payload union -/

/-- The call-event payload: a closed tagged union over the thirteen
alternatives of EventPayload, in declaration order. -/
inductive EventPayload where
  | nullPayload : EventPayload
  | stringPayload : List Byte → EventPayload
  | bufferPayload : List Byte → EventPayload
  | windowHandle : Nat → EventPayload
  | effect : AEffect → EventPayload
  | midiEvents : DynamicVstEvents → EventPayload
  | wantsChunkBuffer : EventPayload
  | ioProperties : VstIOProperties → EventPayload
  | midiKeyName : VstMidiKeyName → EventPayload
  | parameterProperties : VstParameterProperties → EventPayload
  | wantsVstRect : EventPayload
  | wantsVstTimeInfo : EventPayload
  | wantsString : EventPayload
  deriving DecidableEq

/-- The union discriminant of each payload alternative: its position in the
variant declaration. -/
def payloadTag : EventPayload → Nat
  | .nullPayload => 0
  | .stringPayload _ => 1
  | .bufferPayload _ => 2
  | .windowHandle _ => 3
  | .effect _ => 4
  | .midiEvents _ => 5
  | .wantsChunkBuffer => 6
  | .ioProperties _ => 7
  | .midiKeyName _ => 8
  | .parameterProperties _ => 9
  | .wantsVstRect => 10
  | .wantsVstTimeInfo => 11
  | .wantsString => 12

/-- Well-formedness of a payload: the ranges the C++ types guarantee plus
the declared container limits; an embedded plugin descriptor additionally
holds the value-initialized defaults in its untransmitted fields, since
those fields are never on the wire. -/
def EventPayload.WF : EventPayload → Prop
  | .nullPayload => True
  | .stringPayload s => s.length ≤ max_string_length ∧ bytesOk s
  | .bufferPayload b => b.length ≤ binary_buffer_size ∧ bytesOk b
  | .windowHandle w => word64Ok w
  | .effect e => e.WF ∧ e.untransmittedDefault
  | .midiEvents ev => ev.WF
  | .wantsChunkBuffer => True
  | .ioProperties p => p.WF
  | .midiKeyName k => k.WF
  | .parameterProperties p => p.WF
  | .wantsVstRect => True
  | .wantsVstTimeInfo => True
  | .wantsString => True

instance (p : EventPayload) : Decidable p.WF := by
  unfold EventPayload.WF
  cases p <;> simp <;> infer_instance

/-- Serialization of the call-event payload (serialize(S, EventPayload)):
the union discriminant followed by the encoding of the active alternative;
the no-data alternative and the four marker alternatives contribute only
their discriminant. -/
def wEventPayload : EventPayload → Option (List Byte)
  | .nullPayload => some (wSize 0)
  | .stringPayload s => (wBytesVar max_string_length s).map fun b => wSize 1 ++ b
  | .bufferPayload b => (wBytesVar binary_buffer_size b).map fun x => wSize 2 ++ x
  | .windowHandle w => some (wSize 3 ++ wordToBytes 8 w)
  | .effect e => some (wSize 4 ++ wAEffect e)
  | .midiEvents ev => (wDynamicVstEvents ev).map fun b => wSize 5 ++ b
  | .wantsChunkBuffer => some (wSize 6)
  | .ioProperties p => some (wSize 7 ++ wVstIOProperties p)
  | .midiKeyName k => some (wSize 8 ++ wVstMidiKeyName k)
  | .parameterProperties p => some (wSize 9 ++ wVstParameterProperties p)
  | .wantsVstRect => some (wSize 10)
  | .wantsVstTimeInfo => some (wSize 11)
  | .wantsString => some (wSize 12)

/-- Deserialization of the call-event payload: a discriminant outside the
thirteen declared alternatives is a hard decoding failure.  A transmitted
plugin descriptor is materialized into a value-initialized instance. -/
def rEventPayload (bs : List Byte) : Option (EventPayload × List Byte) :=
  (rWord 4 bs).bind fun p =>
    match p.1, p.2 with
    | 0, rest => some (.nullPayload, rest)
    | 1, rest => (rBytesVar max_string_length rest).map fun q => (.stringPayload q.1, q.2)
    | 2, rest => (rBytesVar binary_buffer_size rest).map fun q => (.bufferPayload q.1, q.2)
    | 3, rest => (rWord 8 rest).map fun q => (.windowHandle q.1, q.2)
    | 4, rest => (rAEffect AEffect.valueInit rest).map fun q => (.effect q.1, q.2)
    | 5, rest => (rDynamicVstEvents rest).map fun q => (.midiEvents q.1, q.2)
    | 6, rest => some (.wantsChunkBuffer, rest)
    | 7, rest => (rVstIOProperties rest).map fun q => (.ioProperties q.1, q.2)
    | 8, rest => (rVstMidiKeyName rest).map fun q => (.midiKeyName q.1, q.2)
    | 9, rest => (rVstParameterProperties rest).map fun q => (.parameterProperties q.1, q.2)
    | 10, rest => some (.wantsVstRect, rest)
    | 11, rest => some (.wantsVstTimeInfo, rest)
    | 12, rest => some (.wantsString, rest)
    | _ + 13, _ => none

/-! ### Call events -/

/-- An event as dispatched by the VST host (struct Event). -/
structure Event where
  opcode : Int
  index : Int
  value : Int
  option : Nat
  payload : EventPayload
  deriving DecidableEq

def Event.WF (e : Event) : Prop :=
  int32Ok e.opcode ∧ int32Ok e.index ∧ int64Ok e.value ∧ word32Ok e.option ∧ e.payload.WF

instance (e : Event) : Decidable e.WF := by unfold Event.WF; infer_instance

/-- Serialization of a call event (Event::serialize): opcode and index at
4 bytes, the value field hard-coded at 8 bytes, the option float at
4 bytes, then the payload. -/
def wEvent (e : Event) : Option (List Byte) :=
  (wEventPayload e.payload).map fun pb =>
    wInt 4 e.opcode ++ (wInt 4 e.index ++ (wInt 8 e.value ++ (wordToBytes 4 e.option ++ pb)))

def rEvent (bs : List Byte) : Option (Event × List Byte) :=
  match rInt 4 bs with
  | none => none
  | some (opcode, bs) =>
  match rInt 4 bs with
  | none => none
  | some (index, bs) =>
  match rInt 8 bs with
  | none => none
  | some (value, bs) =>
  match rWord 4 bs with
  | none => none
  | some (optionValue, bs) =>
  match rEventPayload bs with
  | none => none
  | some (payload, bs) =>
  some (⟨opcode, index, value, optionValue, payload⟩, bs)

/-! ### The call-result payload union -/

/-- The response payload union, in declaration order
(EventResposnePayload keeps the spelling the source uses). -/
inductive EventResposnePayload where
  | nullPayload : EventResposnePayload
  | stringPayload : List Byte → EventResposnePayload
  | bufferPayload : List Byte → EventResposnePayload
  | effect : AEffect → EventResposnePayload
  | ioProperties : VstIOProperties → EventResposnePayload
  | midiKeyName : VstMidiKeyName → EventResposnePayload
  | parameterProperties : VstParameterProperties → EventResposnePayload
  | rect : VstRect → EventResposnePayload
  | timeInfo : VstTimeInfo → EventResposnePayload
  deriving DecidableEq

def responseTag : EventResposnePayload → Nat
  | .nullPayload => 0
  | .stringPayload _ => 1
  | .bufferPayload _ => 2
  | .effect _ => 3
  | .ioProperties _ => 4
  | .midiKeyName _ => 5
  | .parameterProperties _ => 6
  | .rect _ => 7
  | .timeInfo _ => 8

def EventResposnePayload.WF : EventResposnePayload → Prop
  | .nullPayload => True
  | .stringPayload s => s.length ≤ max_string_length ∧ bytesOk s
  | .bufferPayload b => b.length ≤ binary_buffer_size ∧ bytesOk b
  | .effect e => e.WF ∧ e.untransmittedDefault
  | .ioProperties p => p.WF
  | .midiKeyName k => k.WF
  | .parameterProperties p => p.WF
  | .rect r => r.WF
  | .timeInfo t => t.WF

instance (p : EventResposnePayload) : Decidable p.WF := by
  unfold EventResposnePayload.WF
  cases p <;> simp <;> infer_instance

/-- Serialization of the response payload (serialize(S,
EventResposnePayload)). -/
def wEventResposnePayload : EventResposnePayload → Option (List Byte)
  | .nullPayload => some (wSize 0)
  | .stringPayload s => (wBytesVar max_string_length s).map fun b => wSize 1 ++ b
  | .bufferPayload b => (wBytesVar binary_buffer_size b).map fun x => wSize 2 ++ x
  | .effect e => some (wSize 3 ++ wAEffect e)
  | .ioProperties p => some (wSize 4 ++ wVstIOProperties p)
  | .midiKeyName k => some (wSize 5 ++ wVstMidiKeyName k)
  | .parameterProperties p => some (wSize 6 ++ wVstParameterProperties p)
  | .rect r => some (wSize 7 ++ wVstRect r)
  | .timeInfo t => some (wSize 8 ++ wVstTimeInfo t)

/-- Deserialization of the response payload: a discriminant outside the
nine declared alternatives is a hard decoding failure. -/
def rEventResposnePayload (bs : List Byte) : Option (EventResposnePayload × List Byte) :=
  (rWord 4 bs).bind fun p =>
    match p.1, p.2 with
    | 0, rest => some (.nullPayload, rest)
    | 1, rest => (rBytesVar max_string_length rest).map fun q => (.stringPayload q.1, q.2)
    | 2, rest => (rBytesVar binary_buffer_size rest).map fun q => (.bufferPayload q.1, q.2)
    | 3, rest => (rAEffect AEffect.valueInit rest).map fun q => (.effect q.1, q.2)
    | 4, rest => (rVstIOProperties rest).map fun q => (.ioProperties q.1, q.2)
    | 5, rest => (rVstMidiKeyName rest).map fun q => (.midiKeyName q.1, q.2)
    | 6, rest => (rVstParameterProperties rest).map fun q => (.parameterProperties q.1, q.2)
    | 7, rest => (rVstRect rest).map fun q => (.rect q.1, q.2)
    | 8, rest => (rVstTimeInfo rest).map fun q => (.timeInfo q.1, q.2)
    | _ + 9, _ => none

/-- The response to an incoming event (struct EventResult): the 8-byte
return value followed by the response payload (EventResult::serialize). -/
structure EventResult where
  return_value : Int
  payload : EventResposnePayload
  deriving DecidableEq

def EventResult.WF (r : EventResult) : Prop := int64Ok r.return_value ∧ r.payload.WF

instance (r : EventResult) : Decidable r.WF := by unfold EventResult.WF; infer_instance

def wEventResult (r : EventResult) : Option (List Byte) :=
  (wEventResposnePayload r.payload).map fun pb => wInt 8 r.return_value ++ pb

def rEventResult (bs : List Byte) : Option (EventResult × List Byte) :=
  match rInt 8 bs with
  | none => none
  | some (return_value, bs) =>
  match rEventResposnePayload bs with
  | none => none
  | some (payload, bs) =>
  some (⟨return_value, payload⟩, bs)

/-! ### Parameter calls -/

/-- The optional float of a parameter message: a one-byte presence flag
followed by the 4-byte value bit pattern when present.  A presence byte
other than 0 or 1 is a hard decoding failure.  Modelled from the spec,
since the optional-value encoding lives in the vendored serialization
library. -/
def wOptFloat : Option Nat → List Byte
  | none => wordToBytes 1 0
  | some v => wordToBytes 1 1 ++ wordToBytes 4 v

def rOptFloat (bs : List Byte) : Option (Option Nat × List Byte) :=
  (rWord 1 bs).bind fun p =>
    match p.1, p.2 with
    | 0, rest => some (none, rest)
    | 1, rest => (rWord 4 rest).map fun q => (some q.1, q.2)
    | _ + 2, _ => none

/-- Range of the optional float value when present. -/
def optValOk : Option Nat → Prop
  | none => True
  | some v => word32Ok v

instance : DecidablePred optValOk := fun o =>
  match o with
  | none => .isTrue trivial
  | some v => inferInstanceAs (Decidable (v < 2 ^ 32))

/-- A getParameter or setParameter call (struct Parameter): present value
means set, absent value means get. -/
structure Parameter where
  index : Int
  value : Option Nat
  deriving DecidableEq

def Parameter.WF (p : Parameter) : Prop := int32Ok p.index ∧ optValOk p.value

instance (p : Parameter) : Decidable p.WF := by unfold Parameter.WF; infer_instance

def wParameter (p : Parameter) : List Byte := wInt 4 p.index ++ wOptFloat p.value

def rParameter (bs : List Byte) : Option (Parameter × List Byte) :=
  match rInt 4 bs with
  | none => none
  | some (index, bs) =>
  match rOptFloat bs with
  | none => none
  | some (value, bs) =>
  some (⟨index, value⟩, bs)

/-- The result of a parameter call (struct ParameterResult). -/
structure ParameterResult where
  value : Option Nat
  deriving DecidableEq

def ParameterResult.WF (r : ParameterResult) : Prop := optValOk r.value

instance (r : ParameterResult) : Decidable r.WF := by
  unfold ParameterResult.WF; infer_instance

def wParameterResult (r : ParameterResult) : List Byte := wOptFloat r.value

def rParameterResult (bs : List Byte) : Option (ParameterResult × List Byte) :=
  (rOptFloat bs).map fun p => (⟨p.1⟩, p.2)

/-! ### Audio buffers -/

/-- A buffer of audio for the plugin to process (struct AudioBuffers):
per-channel sample sequences plus an independently transmitted frame
count.  Samples carry their 4-byte float bit patterns. -/
structure AudioBuffers where
  buffers : List (List Nat)
  sample_frames : Int
  deriving DecidableEq

def AudioBuffers.WF (ab : AudioBuffers) : Prop :=
  ab.buffers.length ≤ max_audio_channels ∧
  (∀ c ∈ ab.buffers, c.length ≤ max_buffer_size ∧ ∀ v ∈ c, word32Ok v) ∧
  int32Ok ab.sample_frames

instance (ab : AudioBuffers) : Decidable ab.WF := by
  unfold AudioBuffers.WF word32Ok int32Ok; infer_instance

/-- One audio channel: a bounded container of 4-byte samples. -/
def wChannel (v : List Nat) : Option (List Byte) :=
  wContainer max_buffer_size (fun x => some (wordToBytes 4 x)) v

def rChannel (bs : List Byte) : Option (List Nat × List Byte) :=
  rContainer max_buffer_size (fun s => rWord 4 s) bs

/-- Serialization of an audio buffer set (AudioBuffers::serialize): the
bounded channel container followed by the 4-byte signed frame count, which
is written independently of the channel contents. -/
def wAudioBuffers (ab : AudioBuffers) : Option (List Byte) :=
  (wContainer max_audio_channels wChannel ab.buffers).map fun bs =>
    bs ++ wInt 4 ab.sample_frames

def rAudioBuffers (bs : List Byte) : Option (AudioBuffers × List Byte) :=
  match rContainer max_audio_channels rChannel bs with
  | none => none
  | some (buffers, bs) =>
  match rInt 4 bs with
  | none => none
  | some (sample_frames, bs) =>
  some (⟨buffers, sample_frames⟩, bs)

/-! ### Wire messages -/

/-- One logical wire message: exactly one of the five top-level shapes. -/
inductive WireMessage where
  | event : Event → WireMessage
  | eventResult : EventResult → WireMessage
  | parameter : Parameter → WireMessage
  | parameterResult : ParameterResult → WireMessage
  | audioBuffers : AudioBuffers → WireMessage
  deriving DecidableEq

/-- The kind of a wire message; the receiver knows the expected kind from
the exchange context, no kind tag is on the wire. -/
inductive MessageKind where
  | eventKind
  | eventResultKind
  | parameterKind
  | parameterResultKind
  | audioBuffersKind
  deriving DecidableEq

def WireMessage.kind : WireMessage → MessageKind
  | .event _ => .eventKind
  | .eventResult _ => .eventResultKind
  | .parameter _ => .parameterKind
  | .parameterResult _ => .parameterResultKind
  | .audioBuffers _ => .audioBuffersKind

def WireMessage.WF : WireMessage → Prop
  | .event e => e.WF
  | .eventResult r => r.WF
  | .parameter p => p.WF
  | .parameterResult r => r.WF
  | .audioBuffers ab => ab.WF

instance (m : WireMessage) : Decidable m.WF := by
  unfold WireMessage.WF
  cases m <;> infer_instance

def wWireMessage : WireMessage → Option (List Byte)
  | .event e => wEvent e
  | .eventResult r => wEventResult r
  | .parameter p => some (wParameter p)
  | .parameterResult r => some (wParameterResult r)
  | .audioBuffers ab => wAudioBuffers ab

def rWireMessage : MessageKind → List Byte → Option (WireMessage × List Byte)
  | .eventKind, bs => (rEvent bs).map fun p => (.event p.1, p.2)
  | .eventResultKind, bs => (rEventResult bs).map fun p => (.eventResult p.1, p.2)
  | .parameterKind, bs => (rParameter bs).map fun p => (.parameter p.1, p.2)
  | .parameterResultKind, bs => (rParameterResult bs).map fun p => (.parameterResult p.1, p.2)
  | .audioBuffersKind, bs => (rAudioBuffers bs).map fun p => (.audioBuffers p.1, p.2)

/-! ### Numeric values of the limits -/

theorem max_midi_events_64 : max_midi_events 8 = 2048 := rfl

theorem max_midi_events_32 : max_midi_events 4 = 4096 := rfl

theorem binary_buffer_size_eq : binary_buffer_size = 52428800 := rfl

/-! ### Round-trip lemmas for the component types -/

theorem rWord_wSize (n : Nat) (rest : List Byte) (h : n < 2 ^ 32) :
    rWord 4 (wSize n ++ rest) = some (n, rest) := rWord4_cons n rest h

theorem rBytesVar_cons' (cap : Nat) (xs rest : List Byte) (hcap : cap < 2 ^ 32)
    (h1 : xs.length ≤ cap) (h2 : bytesOk xs) :
    rBytesVar cap (wSize xs.length ++ (xs ++ rest)) = some (xs, rest) := by
  have := rBytesVar_cons cap xs rest hcap h1 h2
  rwa [List.append_assoc] at this

theorem rAEffect_wAEffect (prev e : AEffect) (he : e.WF) (rest : List Byte) :
    rAEffect prev (wAEffect e ++ rest) =
      some ({ prev with
                magic := e.magic, numPrograms := e.numPrograms, numParams := e.numParams,
                numInputs := e.numInputs, numOutputs := e.numOutputs, flags := e.flags,
                initialDelay := e.initialDelay, empty3a := e.empty3a, empty3b := e.empty3b,
                unkown_float := e.unkown_float, uniqueID := e.uniqueID,
                version := e.version }, rest) := by
  obtain ⟨h1, h2, h3, h4, h5, h6, h7, h8, h9, h10, h11, h12⟩ := he
  have h10' : e.unkown_float < 2 ^ 32 := h10
  rw [wAEffect, rAEffect]
  simp only [List.append_assoc]
  rw [rInt4_cons _ _ h1]; simp only []
  rw [rInt4_cons _ _ h2]; simp only []
  rw [rInt4_cons _ _ h3]; simp only []
  rw [rInt4_cons _ _ h4]; simp only []
  rw [rInt4_cons _ _ h5]; simp only []
  rw [rInt4_cons _ _ h6]; simp only []
  rw [rInt4_cons _ _ h7]; simp only []
  rw [rInt4_cons _ _ h8]; simp only []
  rw [rInt4_cons _ _ h9]; simp only []
  rw [rWord4_cons _ _ h10']; simp only []
  rw [rInt4_cons _ _ h11]; simp only []
  rw [rInt4_cons _ _ h12]

theorem merge_valueInit (e : AEffect) (hd : e.untransmittedDefault) :
    ({ AEffect.valueInit with
        magic := e.magic, numPrograms := e.numPrograms, numParams := e.numParams,
        numInputs := e.numInputs, numOutputs := e.numOutputs, flags := e.flags,
        initialDelay := e.initialDelay, empty3a := e.empty3a, empty3b := e.empty3b,
        unkown_float := e.unkown_float, uniqueID := e.uniqueID, version := e.version } :
      AEffect) = e := by
  obtain ⟨d1, d2, d3, d4, d5, d6, d7, d8, d9, d10⟩ := hd
  cases e
  simp_all [AEffect.valueInit]

theorem rVstIOProperties_cons (p : VstIOProperties) (rest : List Byte) (h : p.WF) :
    rVstIOProperties (wVstIOProperties p ++ rest) = some (p, rest) := by
  obtain ⟨h1, h2⟩ := h
  simp [rVstIOProperties, wVstIOProperties, rBytesFixed_cons _ _ rest h1 h2]

theorem rVstMidiKeyName_cons (p : VstMidiKeyName) (rest : List Byte) (h : p.WF) :
    rVstMidiKeyName (wVstMidiKeyName p ++ rest) = some (p, rest) := by
  obtain ⟨h1, h2⟩ := h
  simp [rVstMidiKeyName, wVstMidiKeyName, rBytesFixed_cons _ _ rest h1 h2]

theorem rVstParameterProperties_cons (p : VstParameterProperties) (rest : List Byte)
    (h : p.WF) : rVstParameterProperties (wVstParameterProperties p ++ rest) = some (p, rest) := by
  obtain ⟨f1, f2, f3, l1, l2, i1, i2, i3, i4, i5, s1, s2, d1, d2, d3, d4, c1, c2, u1, u2⟩ := h
  rw [wVstParameterProperties, rVstParameterProperties]
  simp only [List.append_assoc]
  rw [rWord4_cons _ _ f1]; simp only []
  rw [rWord4_cons _ _ f2]; simp only []
  rw [rWord4_cons _ _ f3]; simp only []
  rw [rBytesFixed_cons _ _ _ l1 l2]; simp only []
  rw [rInt4_cons _ _ i1]; simp only []
  rw [rInt4_cons _ _ i2]; simp only []
  rw [rInt4_cons _ _ i3]; simp only []
  rw [rInt4_cons _ _ i4]; simp only []
  rw [rInt4_cons _ _ i5]; simp only []
  rw [rBytesFixed_cons _ _ _ s1 s2]; simp only []
  rw [rInt2_cons _ _ d1]; simp only []
  rw [rInt2_cons _ _ d2]; simp only []
  rw [rInt2_cons _ _ d3]; simp only []
  rw [rInt2_cons _ _ d4]; simp only []
  rw [rBytesFixed_cons _ _ _ c1 c2]; simp only []
  rw [rBytesFixed_cons _ _ _ u1 u2]

theorem rVstRect_cons (r : VstRect) (rest : List Byte) (h : r.WF) :
    rVstRect (wVstRect r ++ rest) = some (r, rest) := by
  obtain ⟨h1, h2, h3, h4⟩ := h
  rw [wVstRect, rVstRect]
  simp only [List.append_assoc]
  rw [rInt2_cons _ _ h1]; simp only []
  rw [rInt2_cons _ _ h2]; simp only []
  rw [rInt2_cons _ _ h3]; simp only []
  rw [rInt2_cons _ _ h4]

theorem rVstTimeInfo_cons (t : VstTimeInfo) (rest : List Byte) (h : t.WF) :
    rVstTimeInfo (wVstTimeInfo t ++ rest) = some (t, rest) := by
  obtain ⟨h1, h2, h3, h4, h5, h6, h7, h8, h9, h10, h11, h12, h13⟩ := h
  have h1' : t.samplePos < 2 ^ 64 := h1
  have h2' : t.sampleRate < 2 ^ 64 := h2
  have h3' : t.nanoSeconds < 2 ^ 64 := h3
  have h4' : t.ppqPos < 2 ^ 64 := h4
  have h5' : t.tempo < 2 ^ 64 := h5
  have h6' : t.barStartPos < 2 ^ 64 := h6
  have h7' : t.cycleStartPos < 2 ^ 64 := h7
  have h8' : t.cycleEndPos < 2 ^ 64 := h8
  rw [wVstTimeInfo, rVstTimeInfo]
  simp only [List.append_assoc]
  rw [rWord8_cons _ _ h1']; simp only []
  rw [rWord8_cons _ _ h2']; simp only []
  rw [rWord8_cons _ _ h3']; simp only []
  rw [rWord8_cons _ _ h4']; simp only []
  rw [rWord8_cons _ _ h5']; simp only []
  rw [rWord8_cons _ _ h6']; simp only []
  rw [rWord8_cons _ _ h7']; simp only []
  rw [rWord8_cons _ _ h8']; simp only []
  rw [rInt4_cons _ _ h9]; simp only []
  rw [rInt4_cons _ _ h10]; simp only []
  rw [rBytesFixed_cons _ _ _ h11 h12]; simp only []
  rw [rInt4_cons _ _ h13]

theorem rVstEvent_cons (e : VstEvent) (rest : List Byte) (h : e.WF) :
    rVstEvent (wVstEvent e ++ rest) = some (e, rest) := by
  obtain ⟨h1, h2⟩ := h
  simp [rVstEvent, wVstEvent, rBytesFixed_cons _ _ rest h1 h2]

theorem rDynamicVstEvents_wDynamicVstEvents (ev : DynamicVstEvents) (h : ev.WF) :
    ∃ bs, wDynamicVstEvents ev = some bs ∧
      ∀ rest, rDynamicVstEvents (bs ++ rest) = some (ev, rest) := by
  obtain ⟨hlen, helem⟩ := h
  obtain ⟨bs, hw, hr⟩ := rContainer_wContainer (max_midi_events 8) (by decide)
    (fun e => some (wVstEvent e)) rVstEvent ev.events hlen
    (fun x hx => ⟨wVstEvent x, rfl, fun r => rVstEvent_cons x r (helem x hx)⟩)
  exact ⟨bs, hw, fun rest => by simp [rDynamicVstEvents, hr rest]⟩

theorem rOptFloat_cons (o : Option Nat) (rest : List Byte) (h : optValOk o) :
    rOptFloat (wOptFloat o ++ rest) = some (o, rest) := by
  cases o with
  | none => simp [rOptFloat, wOptFloat, rWord1_cons 0 rest (by norm_num)]
  | some v =>
      have hv : v < 2 ^ 32 := h
      simp [rOptFloat, wOptFloat, List.append_assoc,
        rWord1_cons 1 (wordToBytes 4 v ++ rest) (by norm_num), rWord4_cons v rest hv]

theorem rParameter_cons (p : Parameter) (rest : List Byte) (h : p.WF) :
    rParameter (wParameter p ++ rest) = some (p, rest) := by
  obtain ⟨h1, h2⟩ := h
  rw [wParameter, rParameter]
  simp only [List.append_assoc]
  rw [rInt4_cons _ _ h1]; simp only []
  rw [rOptFloat_cons _ rest h2]

theorem rParameterResult_cons (r : ParameterResult) (rest : List Byte) (h : r.WF) :
    rParameterResult (wParameterResult r ++ rest) = some (r, rest) := by
  simp [rParameterResult, wParameterResult, rOptFloat_cons _ rest h]

theorem rChannel_wChannel (c : List Nat) (hlen : c.length ≤ max_buffer_size)
    (hv : ∀ v ∈ c, word32Ok v) :
    ∃ bs, wChannel c = some bs ∧ ∀ rest, rChannel (bs ++ rest) = some (c, rest) :=
  rContainer_wContainer max_buffer_size (by norm_num [max_buffer_size])
    (fun x => some (wordToBytes 4 x)) (fun s => rWord 4 s) c hlen
    (fun x hx => ⟨wordToBytes 4 x, rfl, fun r => rWord4_cons x r (hv x hx)⟩)

theorem rAudioBuffers_wAudioBuffers (ab : AudioBuffers) (h : ab.WF) :
    ∃ bs, wAudioBuffers ab = some bs ∧
      ∀ rest, rAudioBuffers (bs ++ rest) = some (ab, rest) := by
  obtain ⟨hch, hc, hf⟩ := h
  obtain ⟨body, hwb, hrb⟩ := rContainer_wContainer max_audio_channels
    (by norm_num [max_audio_channels]) wChannel rChannel ab.buffers hch
    (fun c hcm => rChannel_wChannel c (hc c hcm).1 (hc c hcm).2)
  refine ⟨body ++ wInt 4 ab.sample_frames, ?_, fun rest => ?_⟩
  · rw [wAudioBuffers, hwb, Option.map_some']
  · simp [rAudioBuffers, List.append_assoc, hrb (wInt 4 ab.sample_frames ++ rest),
      rInt4_cons ab.sample_frames rest hf]

theorem rEventPayload_wEventPayload (p : EventPayload) (hp : p.WF) :
    ∃ bs, wEventPayload p = some bs ∧
      ∀ rest, rEventPayload (bs ++ rest) = some (p, rest) := by
  cases p with
  | nullPayload =>
      exact ⟨wSize 0, rfl, fun rest => by
        simp [rEventPayload, rWord_wSize 0 rest (by norm_num)]⟩
  | stringPayload s =>
      obtain ⟨hlen, hbytes⟩ := hp
      refine ⟨wSize 1 ++ (wSize s.length ++ s), ?_, fun rest => ?_⟩
      · simp [wEventPayload, wBytesVar_eq _ _ hlen hbytes]
      · simp [rEventPayload, List.append_assoc, rWord_wSize,
          (show (1:Nat) < 2 ^ 32 by norm_num),
          rBytesVar_cons' max_string_length s rest
            (by norm_num [max_string_length]) hlen hbytes]
  | bufferPayload b =>
      obtain ⟨hlen, hbytes⟩ := hp
      refine ⟨wSize 2 ++ (wSize b.length ++ b), ?_, fun rest => ?_⟩
      · simp [wEventPayload, wBytesVar_eq _ _ hlen hbytes]
      · simp [rEventPayload, List.append_assoc, rWord_wSize,
          (show (2:Nat) < 2 ^ 32 by norm_num),
          rBytesVar_cons' binary_buffer_size b rest
            (by norm_num [binary_buffer_size_eq]) hlen hbytes]
  | windowHandle w =>
      have hw : w < 2 ^ 64 := hp
      refine ⟨wSize 3 ++ wordToBytes 8 w, rfl, fun rest => ?_⟩
      simp [rEventPayload, List.append_assoc, rWord_wSize,
        (show (3:Nat) < 2 ^ 32 by norm_num), rWord8_cons w rest hw]
  | effect e =>
      obtain ⟨hwf, hd⟩ := hp
      refine ⟨wSize 4 ++ wAEffect e, rfl, fun rest => ?_⟩
      have hm := rAEffect_wAEffect AEffect.valueInit e hwf rest
      rw [merge_valueInit e hd] at hm
      simp [rEventPayload, List.append_assoc, rWord_wSize,
        (show (4:Nat) < 2 ^ 32 by norm_num), hm]
  | midiEvents ev =>
      obtain ⟨bs, hw, hr⟩ := rDynamicVstEvents_wDynamicVstEvents ev hp
      refine ⟨wSize 5 ++ bs, ?_, fun rest => ?_⟩
      · simp [wEventPayload, hw]
      · simp [rEventPayload, List.append_assoc, rWord_wSize,
          (show (5:Nat) < 2 ^ 32 by norm_num), hr rest]
  | wantsChunkBuffer =>
      exact ⟨wSize 6, rfl, fun rest => by
        simp [rEventPayload, rWord_wSize 6 rest (by norm_num)]⟩
  | ioProperties p =>
      refine ⟨wSize 7 ++ wVstIOProperties p, rfl, fun rest => ?_⟩
      simp [rEventPayload, List.append_assoc, rWord_wSize,
        (show (7:Nat) < 2 ^ 32 by norm_num), rVstIOProperties_cons p rest hp]
  | midiKeyName k =>
      refine ⟨wSize 8 ++ wVstMidiKeyName k, rfl, fun rest => ?_⟩
      simp [rEventPayload, List.append_assoc, rWord_wSize,
        (show (8:Nat) < 2 ^ 32 by norm_num), rVstMidiKeyName_cons k rest hp]
  | parameterProperties p =>
      refine ⟨wSize 9 ++ wVstParameterProperties p, rfl, fun rest => ?_⟩
      simp [rEventPayload, List.append_assoc, rWord_wSize,
        (show (9:Nat) < 2 ^ 32 by norm_num), rVstParameterProperties_cons p rest hp]
  | wantsVstRect =>
      exact ⟨wSize 10, rfl, fun rest => by
        simp [rEventPayload, rWord_wSize 10 rest (by norm_num)]⟩
  | wantsVstTimeInfo =>
      exact ⟨wSize 11, rfl, fun rest => by
        simp [rEventPayload, rWord_wSize 11 rest (by norm_num)]⟩
  | wantsString =>
      exact ⟨wSize 12, rfl, fun rest => by
        simp [rEventPayload, rWord_wSize 12 rest (by norm_num)]⟩

theorem rEventResposnePayload_wEventResposnePayload (p : EventResposnePayload) (hp : p.WF) :
    ∃ bs, wEventResposnePayload p = some bs ∧
      ∀ rest, rEventResposnePayload (bs ++ rest) = some (p, rest) := by
  cases p with
  | nullPayload =>
      exact ⟨wSize 0, rfl, fun rest => by
        simp [rEventResposnePayload, rWord_wSize 0 rest (by norm_num)]⟩
  | stringPayload s =>
      obtain ⟨hlen, hbytes⟩ := hp
      refine ⟨wSize 1 ++ (wSize s.length ++ s), ?_, fun rest => ?_⟩
      · simp [wEventResposnePayload, wBytesVar_eq _ _ hlen hbytes]
      · simp [rEventResposnePayload, List.append_assoc, rWord_wSize,
          (show (1:Nat) < 2 ^ 32 by norm_num),
          rBytesVar_cons' max_string_length s rest
            (by norm_num [max_string_length]) hlen hbytes]
  | bufferPayload b =>
      obtain ⟨hlen, hbytes⟩ := hp
      refine ⟨wSize 2 ++ (wSize b.length ++ b), ?_, fun rest => ?_⟩
      · simp [wEventResposnePayload, wBytesVar_eq _ _ hlen hbytes]
      · simp [rEventResposnePayload, List.append_assoc, rWord_wSize,
          (show (2:Nat) < 2 ^ 32 by norm_num),
          rBytesVar_cons' binary_buffer_size b rest
            (by norm_num [binary_buffer_size_eq]) hlen hbytes]
  | effect e =>
      obtain ⟨hwf, hd⟩ := hp
      refine ⟨wSize 3 ++ wAEffect e, rfl, fun rest => ?_⟩
      have hm := rAEffect_wAEffect AEffect.valueInit e hwf rest
      rw [merge_valueInit e hd] at hm
      simp [rEventResposnePayload, List.append_assoc, rWord_wSize,
        (show (3:Nat) < 2 ^ 32 by norm_num), hm]
  | ioProperties p =>
      refine ⟨wSize 4 ++ wVstIOProperties p, rfl, fun rest => ?_⟩
      simp [rEventResposnePayload, List.append_assoc, rWord_wSize,
        (show (4:Nat) < 2 ^ 32 by norm_num), rVstIOProperties_cons p rest hp]
  | midiKeyName k =>
      refine ⟨wSize 5 ++ wVstMidiKeyName k, rfl, fun rest => ?_⟩
      simp [rEventResposnePayload, List.append_assoc, rWord_wSize,
        (show (5:Nat) < 2 ^ 32 by norm_num), rVstMidiKeyName_cons k rest hp]
  | parameterProperties p =>
      refine ⟨wSize 6 ++ wVstParameterProperties p, rfl, fun rest => ?_⟩
      simp [rEventResposnePayload, List.append_assoc, rWord_wSize,
        (show (6:Nat) < 2 ^ 32 by norm_num), rVstParameterProperties_cons p rest hp]
  | rect r =>
      refine ⟨wSize 7 ++ wVstRect r, rfl, fun rest => ?_⟩
      simp [rEventResposnePayload, List.append_assoc, rWord_wSize,
        (show (7:Nat) < 2 ^ 32 by norm_num), rVstRect_cons r rest hp]
  | timeInfo t =>
      refine ⟨wSize 8 ++ wVstTimeInfo t, rfl, fun rest => ?_⟩
      simp [rEventResposnePayload, List.append_assoc, rWord_wSize,
        (show (8:Nat) < 2 ^ 32 by norm_num), rVstTimeInfo_cons t rest hp]

theorem rEvent_wEvent (e : Event) (he : e.WF) :
    ∃ bs, wEvent e = some bs ∧ ∀ rest, rEvent (bs ++ rest) = some (e, rest) := by
  obtain ⟨h1, h2, h3, h4, h5⟩ := he
  have h4' : e.option < 2 ^ 32 := h4
  obtain ⟨pb, hwp, hrp⟩ := rEventPayload_wEventPayload e.payload h5
  refine ⟨wInt 4 e.opcode ++ (wInt 4 e.index ++ (wInt 8 e.value ++
    (wordToBytes 4 e.option ++ pb))), ?_, fun rest => ?_⟩
  · simp [wEvent, hwp]
  · rw [rEvent]
    simp only [List.append_assoc]
    rw [rInt4_cons _ _ h1]; simp only []
    rw [rInt4_cons _ _ h2]; simp only []
    rw [rInt8_cons _ _ h3]; simp only []
    rw [rWord4_cons _ _ h4']; simp only []
    rw [hrp rest]

theorem rEventResult_wEventResult (r : EventResult) (hr : r.WF) :
    ∃ bs, wEventResult r = some bs ∧ ∀ rest, rEventResult (bs ++ rest) = some (r, rest) := by
  obtain ⟨h1, h2⟩ := hr
  obtain ⟨pb, hwp, hrp⟩ := rEventResposnePayload_wEventResposnePayload r.payload h2
  refine ⟨wInt 8 r.return_value ++ pb, ?_, fun rest => ?_⟩
  · simp [wEventResult, hwp]
  · rw [rEventResult]
    simp only [List.append_assoc]
    rw [rInt8_cons _ _ h1]; simp only []
    rw [hrp rest]

theorem rWireMessage_wWireMessage (m : WireMessage) (hm : m.WF) :
    ∃ bs, wWireMessage m = some bs ∧
      ∀ rest, rWireMessage m.kind (bs ++ rest) = some (m, rest) := by
  cases m with
  | event e =>
      obtain ⟨bs, hw, hr⟩ := rEvent_wEvent e hm
      exact ⟨bs, hw, fun rest => by simp [rWireMessage, WireMessage.kind, hr rest]⟩
  | eventResult r =>
      obtain ⟨bs, hw, hr⟩ := rEventResult_wEventResult r hm
      exact ⟨bs, hw, fun rest => by simp [rWireMessage, WireMessage.kind, hr rest]⟩
  | parameter p =>
      exact ⟨wParameter p, rfl, fun rest => by
        simp [rWireMessage, WireMessage.kind, rParameter_cons p rest hm]⟩
  | parameterResult r =>
      exact ⟨wParameterResult r, rfl, fun rest => by
        simp [rWireMessage, WireMessage.kind, rParameterResult_cons r rest hm]⟩
  | audioBuffers ab =>
      obtain ⟨bs, hw, hr⟩ := rAudioBuffers_wAudioBuffers ab hm
      exact ⟨bs, hw, fun rest => by simp [rWireMessage, WireMessage.kind, hr rest]⟩

/-! ### Hard decoding failures -/

theorem rEventPayload_badTag (d : Nat) (h13 : 13 ≤ d) (h32 : d < 2 ^ 32) (bs : List Byte) :
    rEventPayload (wSize d ++ bs) = none := by
  obtain ⟨k, rfl⟩ : ∃ k, d = k + 13 := ⟨d - 13, by omega⟩
  simp [rEventPayload, rWord_wSize _ bs h32]

theorem rEventResposnePayload_badTag (d : Nat) (h9 : 9 ≤ d) (h32 : d < 2 ^ 32)
    (bs : List Byte) : rEventResposnePayload (wSize d ++ bs) = none := by
  obtain ⟨k, rfl⟩ : ∃ k, d = k + 9 := ⟨d - 9, by omega⟩
  simp [rEventResposnePayload, rWord_wSize _ bs h32]

theorem rEventPayload_stringOver (n : Nat) (bs : List Byte) (h1 : max_string_length < n)
    (h2 : n < 2 ^ 32) : rEventPayload (wSize 1 ++ (wSize n ++ bs)) = none := by
  simp [rEventPayload, rWord_wSize 1 _ (by norm_num),
    rBytesVar_over max_string_length n bs h1 h2]

theorem rEventPayload_bufferOver (n : Nat) (bs : List Byte) (h1 : binary_buffer_size < n)
    (h2 : n < 2 ^ 32) : rEventPayload (wSize 2 ++ (wSize n ++ bs)) = none := by
  simp [rEventPayload, rWord_wSize 2 _ (by norm_num),
    rBytesVar_over binary_buffer_size n bs h1 h2]

theorem rEventPayload_midiOver (n : Nat) (bs : List Byte) (h1 : max_midi_events 8 < n)
    (h2 : n < 2 ^ 32) : rEventPayload (wSize 5 ++ (wSize n ++ bs)) = none := by
  simp [rEventPayload, rDynamicVstEvents, rWord_wSize 5 _ (by norm_num),
    rContainer_over (max_midi_events 8) rVstEvent n bs h1 h2]

theorem rAudioBuffers_channelsOver (n : Nat) (bs : List Byte) (h1 : max_audio_channels < n)
    (h2 : n < 2 ^ 32) : rAudioBuffers (wSize n ++ bs) = none := by
  simp [rAudioBuffers, rContainer_over max_audio_channels rChannel n bs h1 h2]

theorem rOptFloat_badFlag (d : Nat) (bs : List Byte) (h1 : 2 ≤ d) (h2 : d < 256) :
    rOptFloat (wordToBytes 1 d ++ bs) = none := by
  obtain ⟨k, rfl⟩ : ∃ k, d = k + 2 := ⟨d - 2, by omega⟩
  simp [rOptFloat, rWord1_cons _ bs h2]

/-! ### Claim theorems -/

/-- Encode-then-decode of one wire message, at the decode kind the exchange
context supplies. -/
def roundtripMessage (m : WireMessage) : Option (WireMessage × List Byte) :=
  (wWireMessage m).bind fun bs => rWireMessage m.kind bs

/-- A plugin descriptor whose pointer-valued dispatcher field is nonzero. -/
def badDescriptor : AEffect := { AEffect.valueInit with dispatcher := 1 }

/-- A call event carrying that descriptor as its payload. -/
def badMessage : WireMessage := .event ⟨0, 0, 0, 0, .effect badDescriptor⟩

/-- C1 (counterexample): a call event whose payload is a plugin descriptor
with a nonzero pointer-valued field encodes successfully, but decoding the
encoding yields a different value: the pointer-valued field is not
transmitted and comes back value-initialized.  So the claim as stated, that
every in-limits wire message round-trips to an equal value, is false. -/
theorem claim_C1_counterexample :
    roundtripMessage badMessage ≠ some (badMessage, []) ∧
    roundtripMessage badMessage =
      some (.event ⟨0, 0, 0, 0, .effect AEffect.valueInit⟩, []) := by
  constructor
  · decide
  · decide

/-- C1 (amended): for every wire message value whose payload contents
respect the declared limits and in which the pointer-valued fields of any
embedded plugin descriptor hold the value-initialized defaults (those
fields are never transmitted), decoding the encoding yields a value equal
to the original. -/
theorem claim_C1_roundtrip (m : WireMessage) (hm : m.WF) :
    ∃ bs, wWireMessage m = some bs ∧ rWireMessage m.kind bs = some (m, []) := by
  obtain ⟨bs, hw, hr⟩ := rWireMessage_wWireMessage m hm
  refine ⟨bs, hw, ?_⟩
  have := hr []
  rwa [List.append_nil] at this

/-- C1 witness: a concrete parameter request round-trips. -/
theorem claim_C1_witness :
    ∃ bs, wWireMessage (.parameter ⟨3, some 5⟩) = some bs ∧
      rWireMessage (WireMessage.parameter ⟨3, some 5⟩).kind bs =
        some (.parameter ⟨3, some 5⟩, []) :=
  claim_C1_roundtrip (.parameter ⟨3, some 5⟩) (by decide)

/-- C2: the call-event value field and the window-handle payload are always
encoded at exactly 8 bytes; a pointer-sized integer held in the 32-bit
range of a simulated 32-bit process decodes back to the same value through
the 8-byte encoding, and the event serializer writes the value field with
the 8-byte encoder independently of everything else. -/
theorem claim_C2_always8 :
    (∀ v : Int, (wInt 8 v).length = 8) ∧
    (∀ w : Nat, (wordToBytes 8 w).length = 8) ∧
    (∀ v : Int, -(2 ^ 31) ≤ v → v < 2 ^ 31 →
      ∀ rest, rInt 8 (wInt 8 v ++ rest) = some (v, rest)) ∧
    (∀ w : Nat, w < 2 ^ 32 →
      ∀ rest, rWord 8 (wordToBytes 8 w ++ rest) = some (w, rest)) ∧
    (∀ e : Event, e.WF → ∃ pb, wEventPayload e.payload = some pb ∧
      wEvent e = some (wInt 4 e.opcode ++ (wInt 4 e.index ++ (wInt 8 e.value ++
        (wordToBytes 4 e.option ++ pb))))) ∧
    (∀ w : Nat, wEventPayload (.windowHandle w) = some (wSize 3 ++ wordToBytes 8 w)) := by
  refine ⟨fun v => length_wordToBytes 8 _, fun w => length_wordToBytes 8 w, ?_, ?_, ?_, fun w => rfl⟩
  · intro v h1 h2 rest
    refine rInt8_cons v rest ⟨?_, ?_⟩ <;> norm_num at h1 h2 ⊢ <;> omega
  · intro w hw rest
    exact rWord8_cons w rest (by norm_num at hw ⊢; omega)
  · intro e he
    obtain ⟨pb, hwp, -⟩ := rEventPayload_wEventPayload e.payload he.2.2.2.2
    exact ⟨pb, hwp, by simp [wEvent, hwp]⟩

/-- C2 witness: a negative pointer-sized value in the 32-bit range
round-trips through the 8-byte encoding. -/
theorem claim_C2_witness :
    rInt 8 (wInt 8 (-12345) ++ []) = some (-12345, []) :=
  claim_C2_always8.2.2.1 (-12345) (by norm_num) (by norm_num) []

/-- C3: the source computes the MIDI event cap as the buffer-size limit
divided by the byte width of the native size type, so it is 2048 only on
the 64-bit builds; on the optional 32-bit companion build it is 4096, not
2048.  Encoding a 2049-event batch fails on a 64-bit build and a decoded
length prefix of 2049 fails against the 64-bit cap. -/
theorem claim_C3_cap_build_dependent :
    max_midi_events 8 = 2048 ∧ max_midi_events 4 = 4096 ∧ max_midi_events 4 ≠ 2048 ∧
    max_midi_events 8 = max_buffer_size / 8 ∧
    wDynamicVstEvents ⟨List.replicate 2049 ⟨List.replicate vstEventDumpSize 0⟩⟩ = none ∧
    rDynamicVstEvents (wSize 2049 ++ []) = none := by
  refine ⟨rfl, rfl, by decide, rfl, ?_, ?_⟩
  · have hlen : ¬ ((List.replicate 2049
        (⟨List.replicate vstEventDumpSize 0⟩ : VstEvent)).length ≤ max_midi_events 8) := by
      rw [List.length_replicate, max_midi_events_64]; omega
    rw [wDynamicVstEvents, wContainer, if_neg hlen]
  · have h := rContainer_over (max_midi_events 8) rVstEvent 2049 [] (by decide) (by decide)
    rw [List.append_nil] at h
    simp [rDynamicVstEvents, h]

/-- C4: deserializing a plugin descriptor into an already-allocated
instance assigns exactly the twelve numeric fields and leaves every other
field of that instance, in particular all pointer-valued fields, unchanged;
merging the encoding of a well-formed descriptor into any instance yields
that instance with only the twelve fields replaced. -/
theorem claim_C4_merge :
    (∀ (prev : AEffect) (bs : List Byte) (eff : AEffect) (rest' : List Byte),
      rAEffect prev bs = some (eff, rest') →
        eff.dispatcher = prev.dispatcher ∧ eff.process = prev.process ∧
        eff.setParameter = prev.setParameter ∧ eff.getParameter = prev.getParameter ∧
        eff.ptr1 = prev.ptr1 ∧ eff.ptr2 = prev.ptr2 ∧ eff.ptr3 = prev.ptr3 ∧
        eff.user = prev.user ∧ eff.processReplacing = prev.processReplacing ∧
        eff.future = prev.future) ∧
    (∀ (prev e : AEffect), e.WF → ∀ rest, rAEffect prev (wAEffect e ++ rest) =
      some ({ prev with
                magic := e.magic, numPrograms := e.numPrograms, numParams := e.numParams,
                numInputs := e.numInputs, numOutputs := e.numOutputs, flags := e.flags,
                initialDelay := e.initialDelay, empty3a := e.empty3a, empty3b := e.empty3b,
                unkown_float := e.unkown_float, uniqueID := e.uniqueID,
                version := e.version }, rest)) := by
  constructor
  · intro prev bs eff rest' h
    rw [rAEffect] at h
    repeat' split at h
    any_goals exact Option.noConfusion h
    simp only [Option.some.injEq, Prod.mk.injEq] at h
    obtain ⟨h1, -⟩ := h
    subst h1
    exact ⟨rfl, rfl, rfl, rfl, rfl, rfl, rfl, rfl, rfl, rfl⟩
  · intro prev e he rest
    exact rAEffect_wAEffect prev e he rest

/-- C4 witness: merging a concrete descriptor encoding into a concrete
instance with nonzero pointer fields replaces exactly the twelve numeric
fields. -/
theorem claim_C4_witness :
    rAEffect
        ⟨9, 101, 102, 103, 104, 1, 2, 3, 4, 5, 105, 106, 6, 7, 8, 10, 107, 108, 11, 12, 109,
          [1, 2]⟩
        (wAEffect ⟨77, 0, 0, 0, 0, 21, 22, 23, 24, 25, 0, 0, 26, 27, 28, 29, 0, 0, 30, 31, 0,
          []⟩ ++ []) =
      some (⟨77, 101, 102, 103, 104, 21, 22, 23, 24, 25, 105, 106, 26, 27, 28, 29, 107, 108,
        30, 31, 109, [1, 2]⟩, []) :=
  claim_C4_merge.2
    ⟨9, 101, 102, 103, 104, 1, 2, 3, 4, 5, 105, 106, 6, 7, 8, 10, 107, 108, 11, 12, 109,
      [1, 2]⟩
    ⟨77, 0, 0, 0, 0, 21, 22, 23, 24, 25, 0, 0, 26, 27, 28, 29, 0, 0, 30, 31, 0, []⟩
    (by decide) []

/-- C5: decoding fails with no value when a variable-length container
carries a length prefix over its declared maximum or a tagged-union
discriminant falls outside the enumerated variant set; this covers both
payload unions, the MIDI batch, the audio channel container, the optional
presence flag, and the generic bounded length prefix. -/
theorem claim_C5_decode_failures :
    (∀ d bs, 13 ≤ d → d < 2 ^ 32 → rEventPayload (wSize d ++ bs) = none) ∧
    (∀ d bs, 9 ≤ d → d < 2 ^ 32 → rEventResposnePayload (wSize d ++ bs) = none) ∧
    (∀ n bs, max_string_length < n → n < 2 ^ 32 →
      rEventPayload (wSize 1 ++ (wSize n ++ bs)) = none) ∧
    (∀ n bs, binary_buffer_size < n → n < 2 ^ 32 →
      rEventPayload (wSize 2 ++ (wSize n ++ bs)) = none) ∧
    (∀ n bs, max_midi_events 8 < n → n < 2 ^ 32 →
      rEventPayload (wSize 5 ++ (wSize n ++ bs)) = none) ∧
    (∀ n bs, max_audio_channels < n → n < 2 ^ 32 → rAudioBuffers (wSize n ++ bs) = none) ∧
    (∀ d bs, 2 ≤ d → d < 256 → rOptFloat (wordToBytes 1 d ++ bs) = none) ∧
    (∀ cap n bs, cap < n → n < 2 ^ 32 → rSize cap (wSize n ++ bs) = none) :=
  ⟨fun d bs h1 h2 => rEventPayload_badTag d h1 h2 bs,
   fun d bs h1 h2 => rEventResposnePayload_badTag d h1 h2 bs,
   fun n bs h1 h2 => rEventPayload_stringOver n bs h1 h2,
   fun n bs h1 h2 => rEventPayload_bufferOver n bs h1 h2,
   fun n bs h1 h2 => rEventPayload_midiOver n bs h1 h2,
   fun n bs h1 h2 => rAudioBuffers_channelsOver n bs h1 h2,
   fun d bs h1 h2 => rOptFloat_badFlag d bs h1 h2,
   fun cap n bs h1 h2 => rSize_over cap n bs h1 h2⟩

/-- C5 witness: the first discriminant outside the event payload union
fails decoding. -/
theorem claim_C5_witness : rEventPayload (wSize 13 ++ []) = none :=
  claim_C5_decode_failures.1 13 [] (by norm_num) (by norm_num)

/-- C6: a parameter request round-trips its 4-byte index and its optional
float exactly, with presence preserved, and a parameter result with an
absent value decodes to a value distinguishable from one carrying the
present value with bit pattern zero. -/
theorem claim_C6_parameter :
    (∀ p : Parameter, p.WF → ∀ rest, rParameter (wParameter p ++ rest) = some (p, rest)) ∧
    (∀ r : ParameterResult, r.WF →
      ∀ rest, rParameterResult (wParameterResult r ++ rest) = some (r, rest)) ∧
    rParameterResult (wParameterResult ⟨none⟩) = some (⟨none⟩, []) ∧
    rParameterResult (wParameterResult ⟨some 0⟩) = some (⟨some 0⟩, []) ∧
    (⟨none⟩ : ParameterResult) ≠ ⟨some 0⟩ := by
  refine ⟨fun p hp rest => rParameter_cons p rest hp,
    fun r hr rest => rParameterResult_cons r rest hr, ?_, ?_, by decide⟩
  · decide
  · decide

/-- C6 witness: a concrete set-parameter request round-trips. -/
theorem claim_C6_witness :
    rParameter (wParameter ⟨7, some 3⟩ ++ []) = some (⟨7, some 3⟩, []) :=
  claim_C6_parameter.1 ⟨7, some 3⟩ (by decide) []

/-- C7: an audio buffer set with between 1 and 32 channels, every channel
of length equal to the frame count, and frame count at most 16384,
round-trips to an equal value, which therefore again satisfies the
invariant. -/
theorem claim_C7_invariant (ab : AudioBuffers)
    (h1 : 1 ≤ ab.buffers.length) (h2 : ab.buffers.length ≤ max_audio_channels)
    (h3 : ∀ c ∈ ab.buffers, (c.length : Int) = ab.sample_frames)
    (h4 : ab.sample_frames ≤ (max_buffer_size : Int))
    (h5 : ∀ c ∈ ab.buffers, ∀ v ∈ c, word32Ok v) :
    ∃ bs ab', wAudioBuffers ab = some bs ∧ rAudioBuffers bs = some (ab', []) ∧ ab' = ab ∧
      (∀ c ∈ ab'.buffers, c ≠ [] → (c.length : Int) = ab'.sample_frames) ∧
      ab'.buffers.length ≤ max_audio_channels ∧
      ab'.sample_frames ≤ (max_buffer_size : Int) := by
  obtain ⟨c0, hc0⟩ := List.exists_mem_of_length_pos h1
  have hsf0 : 0 ≤ ab.sample_frames := by
    rw [← h3 c0 hc0]; exact Int.ofNat_nonneg _
  have hwf : ab.WF := by
    refine ⟨h2, fun c hc => ⟨?_, h5 c hc⟩, ?_, ?_⟩
    · have := h3 c hc
      have hb : (c.length : Int) ≤ (max_buffer_size : Int) := this ▸ h4
      exact_mod_cast hb
    · have : (0 : Int) ≤ ab.sample_frames := hsf0
      norm_num [max_buffer_size] at h4
      norm_num
      omega
    · norm_num [max_buffer_size] at h4
      norm_num
      omega
  obtain ⟨bs, hw, hr⟩ := rAudioBuffers_wAudioBuffers ab hwf
  refine ⟨bs, ab, hw, ?_, rfl, fun c hc _ => h3 c hc, h2, h4⟩
  have := hr []
  rwa [List.append_nil] at this

/-- C7 witness: a concrete two-channel, two-frame buffer set round-trips
and keeps the invariant. -/
theorem claim_C7_witness :
    ∃ bs ab', wAudioBuffers ⟨[[1, 2], [3, 4]], 2⟩ = some bs ∧
      rAudioBuffers bs = some (ab', []) ∧ ab' = ⟨[[1, 2], [3, 4]], 2⟩ ∧
      (∀ c ∈ ab'.buffers, c ≠ [] → (c.length : Int) = ab'.sample_frames) ∧
      ab'.buffers.length ≤ max_audio_channels ∧
      ab'.sample_frames ≤ (max_buffer_size : Int) :=
  claim_C7_invariant ⟨[[1, 2], [3, 4]], 2⟩ (by decide) (by decide) (by decide) (by decide)
    (by decide)

/-- C8: the binary blob cap is exactly 52428800 bytes; a blob of exactly
that size encodes and decodes back to itself, a blob one byte over fails to
encode, and a decoded length prefix over the cap fails to decode. -/
theorem claim_C8_blob_cap :
    binary_buffer_size = 52428800 ∧
    (∀ b : List Byte, b.length = 52428800 → bytesOk b →
      ∃ bs, wEventPayload (.bufferPayload b) = some bs ∧
        rEventPayload bs = some (.bufferPayload b, [])) ∧
    (∀ b : List Byte, b.length = 52428801 → wEventPayload (.bufferPayload b) = none) ∧
    (∀ n bs, binary_buffer_size < n → n < 2 ^ 32 →
      rEventPayload (wSize 2 ++ (wSize n ++ bs)) = none) := by
  refine ⟨rfl, ?_, ?_, fun n bs h1 h2 => rEventPayload_bufferOver n bs h1 h2⟩
  · intro b hb hok
    have hwf : (EventPayload.bufferPayload b).WF := by
      refine ⟨?_, hok⟩
      rw [hb, binary_buffer_size_eq]
    obtain ⟨bs, hw, hr⟩ := rEventPayload_wEventPayload (.bufferPayload b) hwf
    refine ⟨bs, hw, ?_⟩
    have := hr []
    rwa [List.append_nil] at this
  · intro b hb
    simp [wEventPayload, wBytesVar, hb, binary_buffer_size_eq]

/-- C8 witness: a blob of exactly the cap size round-trips; applying the
cap theorem to the all-zero blob of 52428800 bytes. -/
theorem claim_C8_witness :
    ∃ bs, wEventPayload (.bufferPayload (List.replicate 52428800 0)) = some bs ∧
      rEventPayload bs = some (.bufferPayload (List.replicate 52428800 0), []) :=
  claim_C8_blob_cap.2.1 (List.replicate 52428800 0) (List.length_replicate 52428800 0)
    (fun b hb => by rw [List.eq_of_mem_replicate hb]; norm_num)

/-- C9: the call-event payload union is closed over exactly thirteen
alternatives, every discriminant below thirteen is realized by some
alternative, every successful encoding starts with the discriminant of its
alternative, and the no-data alternative and the four marker alternatives
encode to their discriminant alone. -/
theorem claim_C9_closed_union :
    (∀ p : EventPayload, payloadTag p < 13) ∧
    (∀ d, d < 13 → ∃ p : EventPayload, payloadTag p = d) ∧
    (∀ (p : EventPayload) (bs : List Byte), wEventPayload p = some bs →
      ∃ tail, bs = wSize (payloadTag p) ++ tail) ∧
    wEventPayload .nullPayload = some (wSize 0) ∧
    wEventPayload .wantsChunkBuffer = some (wSize 6) ∧
    wEventPayload .wantsVstRect = some (wSize 10) ∧
    wEventPayload .wantsVstTimeInfo = some (wSize 11) ∧
    wEventPayload .wantsString = some (wSize 12) := by
  refine ⟨?_, ?_, ?_, rfl, rfl, rfl, rfl, rfl⟩
  · intro p
    cases p <;> simp [payloadTag]
  · intro d hd
    interval_cases d
    · exact ⟨.nullPayload, rfl⟩
    · exact ⟨.stringPayload [], rfl⟩
    · exact ⟨.bufferPayload [], rfl⟩
    · exact ⟨.windowHandle 0, rfl⟩
    · exact ⟨.effect AEffect.valueInit, rfl⟩
    · exact ⟨.midiEvents ⟨[]⟩, rfl⟩
    · exact ⟨.wantsChunkBuffer, rfl⟩
    · exact ⟨.ioProperties ⟨[]⟩, rfl⟩
    · exact ⟨.midiKeyName ⟨[]⟩, rfl⟩
    · exact ⟨.parameterProperties ⟨0, 0, 0, [], 0, 0, 0, 0, 0, [], 0, 0, 0, 0, [], []⟩, rfl⟩
    · exact ⟨.wantsVstRect, rfl⟩
    · exact ⟨.wantsVstTimeInfo, rfl⟩
    · exact ⟨.wantsString, rfl⟩
  · intro p bs hw
    cases p with
    | nullPayload =>
        simp only [wEventPayload, Option.some.injEq] at hw
        exact ⟨[], by simp [← hw, payloadTag]⟩
    | stringPayload s =>
        simp only [wEventPayload, Option.map_eq_some'] at hw
        obtain ⟨x, -, rfl⟩ := hw
        exact ⟨x, by simp [payloadTag]⟩
    | bufferPayload b =>
        simp only [wEventPayload, Option.map_eq_some'] at hw
        obtain ⟨x, -, rfl⟩ := hw
        exact ⟨x, by simp [payloadTag]⟩
    | windowHandle w =>
        simp only [wEventPayload, Option.some.injEq] at hw
        exact ⟨wordToBytes 8 w, by simp [← hw, payloadTag]⟩
    | effect e =>
        simp only [wEventPayload, Option.some.injEq] at hw
        exact ⟨wAEffect e, by simp [← hw, payloadTag]⟩
    | midiEvents ev =>
        simp only [wEventPayload, Option.map_eq_some'] at hw
        obtain ⟨x, -, rfl⟩ := hw
        exact ⟨x, by simp [payloadTag]⟩
    | wantsChunkBuffer =>
        simp only [wEventPayload, Option.some.injEq] at hw
        exact ⟨[], by simp [← hw, payloadTag]⟩
    | ioProperties p =>
        simp only [wEventPayload, Option.some.injEq] at hw
        exact ⟨wVstIOProperties p, by simp [← hw, payloadTag]⟩
    | midiKeyName k =>
        simp only [wEventPayload, Option.some.injEq] at hw
        exact ⟨wVstMidiKeyName k, by simp [← hw, payloadTag]⟩
    | parameterProperties p =>
        simp only [wEventPayload, Option.some.injEq] at hw
        exact ⟨wVstParameterProperties p, by simp [← hw, payloadTag]⟩
    | wantsVstRect =>
        simp only [wEventPayload, Option.some.injEq] at hw
        exact ⟨[], by simp [← hw, payloadTag]⟩
    | wantsVstTimeInfo =>
        simp only [wEventPayload, Option.some.injEq] at hw
        exact ⟨[], by simp [← hw, payloadTag]⟩
    | wantsString =>
        simp only [wEventPayload, Option.some.injEq] at hw
        exact ⟨[], by simp [← hw, payloadTag]⟩

/-- C9 witness: the chunk-buffer marker realizes discriminant six. -/
theorem claim_C9_witness : ∃ p : EventPayload, payloadTag p = 6 :=
  claim_C9_closed_union.2.1 6 (by norm_num)

/-- C10: audio buffer encoding never relates the frame count to the
channel contents: any buffer set within the container caps round-trips
with all fields unchanged, no matter whether the channel lengths match the
frame count, whether there are zero channels, or whether the frame count
is negative; and the frame count is written as an independent trailing
4-byte signed integer. -/
theorem claim_C10_frames_independent :
    (∀ ab : AudioBuffers, ab.WF → ∃ bs, wAudioBuffers ab = some bs ∧
      ∀ rest, rAudioBuffers (bs ++ rest) = some (ab, rest)) ∧
    (∀ ab : AudioBuffers, ab.WF →
      ∃ pre, wAudioBuffers ab = some (pre ++ wInt 4 ab.sample_frames)) := by
  constructor
  · exact fun ab h => rAudioBuffers_wAudioBuffers ab h
  · intro ab h
    obtain ⟨hch, hc, hf⟩ := h
    obtain ⟨body, hwb, -⟩ := rContainer_wContainer max_audio_channels
      (by norm_num [max_audio_channels]) wChannel rChannel ab.buffers hch
      (fun c hcm => rChannel_wChannel c (hc c hcm).1 (hc c hcm).2)
    exact ⟨body, by rw [wAudioBuffers, hwb, Option.map_some']⟩

/-- C10 witness: a buffer set with mismatched channel lengths and a
negative frame count round-trips unchanged, and so does one with zero
channels. -/
theorem claim_C10_witness :
    (∃ bs, wAudioBuffers ⟨[[1], [2, 3]], -5⟩ = some bs ∧
      ∀ rest, rAudioBuffers (bs ++ rest) = some (⟨[[1], [2, 3]], -5⟩, rest)) ∧
    (∃ bs, wAudioBuffers ⟨[], -1⟩ = some bs ∧
      ∀ rest, rAudioBuffers (bs ++ rest) = some (⟨[], -1⟩, rest)) :=
  ⟨claim_C10_frames_independent.1 ⟨[[1], [2, 3]], -5⟩ (by decide),
   claim_C10_frames_independent.1 ⟨[], -1⟩ (by decide)⟩

end Yabridge
